import Mathlib

/-!
Verification development for the SnykAudit chatbot core
(query-understanding and event-analysis pipeline).

This file gives a shallow embedding in Lean 4 of the decision logic of the
repository:

* `src/api/client.js` — `SnykApiClient.fetchAllPages` (cursor pagination,
  page-shape normalization, the 100-page safety cap, and the in-loop
  `try/catch`), and `SnykApiClient.getAllOrgUsers` (roster fetch with
  HTTP-error classification).
* `src/api/service.js` — `SnykAuditService.getAllOrgUsers` (roster
  post-processing and error swallowing).
* `src/core/anomalyDetector.js` — `AnomalyDetector.detectAnomalies`
  (volume rule, after-hours rule, service-account rule).
* `src/core/userActivityAnalyzer.js` — `UserActivityAnalyzer.analyzeUserActivity`
  and the suggestion rendering of `generateUserActivitySummary`.
* `src/nlp/intentRecognizer.js` — `IntentRecognizer.recognizeIntent`
  (regex-first classification with keyword fallback).
* `src/nlp/entityExtractor.js` — `EntityExtractor.extractEntities`
  (ordered pattern matching with capture groups).
* `src/core/snykChatbotWrapper.js` / `src/core/responseFormatter.js` /
  `src/nlp/chatbotNlpIntegration.js` — the request router
  (`handleRequest`), response formatting, and `processMessage`.

JavaScript-specific behaviour is modelled explicitly: string truthiness
(`""`, `null`, `undefined` are falsy), `||` defaulting, object key
iteration in insertion order, regex `test`/`match` semantics (leftmost
match, greedy quantifiers, `/i` case folding), and `try/catch` as the
`Except` monad.  External library behaviour (axios, `new Date`, `new URL`)
is modelled at the call boundary: a timestamp is an epoch-milliseconds
number (so `getUTCHours` is `t / 3600000 % 24`), and the parse of a
pagination next-link is the outcome it produces (a parse failure or an
optional `starting_after` value).
-/

namespace SnykAudit

/-- Truthiness of a JS string value (`null`/`undefined` is `none`;
the empty string is falsy). -/
def jsTruthyS : Option String → Bool
  | none => false
  | some s => s ≠ ""

/-- JS `a || b` for string values: keep `a` when truthy, else `b`. -/
def jsOrS (a : Option String) (b : String) : String :=
  match a with
  | some s => if s ≠ "" then s else b
  | none => b

/-- ASCII lower-casing of one character, as `String.prototype.toLowerCase`
acts on the ASCII range (the only range exercised by the repository). -/
def lowChar (c : Char) : Char :=
  if 'A' ≤ c ∧ c ≤ 'Z' then Char.ofNat (c.toNat + 32) else c

/-- ASCII lower-casing of a character list. -/
def lowStr (s : List Char) : List Char := s.map lowChar

/-- Whitespace test used by `String.prototype.trim` (ASCII subset). -/
def isWsChar (c : Char) : Bool :=
  c = ' ' ∨ c = '\t' ∨ c = '\n' ∨ c = '\r'

/-- `String.prototype.trim`. -/
def jsTrim (s : List Char) : List Char :=
  ((s.dropWhile isWsChar).reverse.dropWhile isWsChar).reverse

/-- First-occurrence deduplication helper; `seen` accumulates keys already
emitted.  `uniqKeys l` below models `Object.keys` of an object populated by
iterating `l` in order (JS string keys enumerate in insertion order). -/
def uniqAux : List String → List String → List String
  | [], _ => []
  | k :: rest, seen =>
    if k ∈ seen then uniqAux rest seen else k :: uniqAux rest (k :: seen)

/-- Keys of a JS object built by inserting the elements of `l` in order. -/
def uniqKeys (l : List String) : List String := uniqAux l []

/-- A JS exception value (only its `message` is observed by the code
under study). -/
structure JsError where
  message : String
  deriving DecidableEq, Repr

/-- Decidable equality for settled promise outcomes. -/
instance instDecEqExcept {ε α : Type} [DecidableEq ε] [DecidableEq α] :
    DecidableEq (Except ε α)
  | .ok a, .ok b =>
    if h : a = b then .isTrue (by rw [h])
    else .isFalse (by intro hc; cases hc; exact h rfl)
  | .error a, .error b =>
    if h : a = b then .isTrue (by rw [h])
    else .isFalse (by intro hc; cases hc; exact h rfl)
  | .ok _, .error _ => .isFalse (by intro hc; cases hc)
  | .error _, .ok _ => .isFalse (by intro hc; cases hc)

/-! ## Data model: normalized audit events

`fetchAllPages` (src/api/client.js lines 280-300) normalizes raw page items
to `{created, event, content, user_id, org_id}`.  `content` is a free-form
map; the analyzers only ever read `content.user_id` and
`content.performed_by`, so the embedding carries exactly those keys. -/

/-- The `content` sub-object of an audit event (fields read by the core). -/
structure EventContent where
  user_id : Option String := none
  performed_by : Option String := none
  deriving DecidableEq, Repr

/-- A normalized audit event.  `created` is the event timestamp in epoch
milliseconds (`new Date(event.created).getUTCHours()` is then
`created / 3600000 % 24`). -/
structure AuditEvent where
  created : Nat
  event : String
  content : Option EventContent := none
  user_id : Option String := none
  org_id : Option String := none
  deriving DecidableEq, Repr

/-! ## Pagination engine — `SnykApiClient.fetchAllPages`
(src/api/client.js lines 225-301) -/

namespace ApiClient

/-- A raw page item.  The source normalizes two shapes: items wrapped in an
`attributes` envelope, and flat items; `top` holds the item's own
top-level fields (read only when `attributes` is absent). -/
structure RawItem where
  attributes : Option AuditEvent := none
  top : AuditEvent
  deriving DecidableEq, Repr

/-- The normalization map at the end of `fetchAllPages`: if
`item.attributes` is present its fields are taken, otherwise the item's
direct fields are. -/
def normalizeItem (it : RawItem) : AuditEvent :=
  match it.attributes with
  | some a => a
  | none => it.top

/-- The `response.data` payload of one page: either an array directly, or
an object that may carry an `items` array (both accepted by lines
244-250); any other shape contributes no items. -/
inductive PageData where
  | arr (items : List RawItem)
  | obj (items : Option (List RawItem))
  deriving DecidableEq, Repr

/-- Outcome of processing a truthy `response.links.next` value:
`parseFail` when `new URL(...)` throws (caught at lines 259-262), and
`cursor c` with `c = searchParams.get('starting_after')` otherwise
(`none` models a `null` get result). -/
inductive NextLink where
  | parseFail
  | cursor (c : Option String)
  deriving DecidableEq, Repr

/-- One page response.  `next` models `response.links && response.links.next`
being truthy (`none` when absent/falsy); when present, the value is the
outcome of extracting the `starting_after` cursor from the link. -/
structure PageResp where
  data : Option PageData := none
  next : Option NextLink := none
  deriving DecidableEq, Repr

/-- Items contributed by one page (lines 244-250). -/
def pageItems : Option PageData → List RawItem
  | none => []
  | some (.arr xs) => xs
  | some (.obj (some xs)) => xs
  | some (.obj none) => []

/-- A search operation.  The first argument is the number of calls already
made (so a stateful mock is expressible); the second is the
`starting_after` cursor included in the search params (`none` on the first
call).  The outcome is the settled promise of
`searchFunction.call(this, id, searchParams)` — an error models a
non-retriable failure surfacing after `_request`'s internal retries. -/
def SearchFun : Type := Nat → Option String → Except JsError PageResp

/-- The `while (hasMorePages)` loop of `fetchAllPages`.  State: accumulated
raw items `acc`, current cursor, the `page` counter (starts at 1, increments
only when a truthy cursor is extracted), and `calls`, the number of search
calls made so far.  `fuel` only bounds the recursion; the loop itself stops
via the `page > 100` check, so `fuel = 101` never runs out (the loop makes
at most 100 iterations).  A search error is caught (lines 266-269): the
loop simply stops with the items accumulated so far. -/
def fetchLoop (search : SearchFun) :
    Nat → List RawItem → Option String → Nat → Nat → List RawItem × Nat
  | 0, acc, _, _, calls => (acc, calls)
  | fuel + 1, acc, cursor, page, calls =>
    match search calls cursor with
    | .error _ => (acc, calls + 1)
    | .ok resp =>
      let acc' := acc ++ pageItems resp.data
      match resp.next with
      | none => (acc', calls + 1)
      | some .parseFail => (acc', calls + 1)
      | some (.cursor c) =>
        if jsTruthyS c then
          if page + 1 > 100 then (acc', calls + 1)
          else fetchLoop search fuel acc' c (page + 1) (calls + 1)
        else (acc', calls + 1)

/-- `fetchAllPages`, instrumented with the number of search calls made.
The loop starts with no cursor, `page = 1`, no accumulated items. -/
def fetchAllPagesRun (search : SearchFun) : List AuditEvent × Nat :=
  let (raw, calls) := fetchLoop search 101 [] none 1 0
  (raw.map normalizeItem, calls)

/-- The settled result of the `fetchAllPages` promise: the function
resolves with the normalized accumulated items (it never rejects from a
page failure — the in-loop `catch` swallows it). -/
def fetchAllPages (search : SearchFun) : Except JsError (List AuditEvent) :=
  .ok (fetchAllPagesRun search).1

/-- Number of calls `fetchAllPages` makes to the search operation. -/
def fetchAllPagesCalls (search : SearchFun) : Nat :=
  (fetchAllPagesRun search).2

/-- A search function whose every response carries a truthy next-link
cursor (the C3 scenario). -/
def AlwaysNext (search : SearchFun) : Prop :=
  ∀ k c, ∃ resp s, search k c = .ok resp ∧
    resp.next = some (.cursor (some s)) ∧ s ≠ ""

/-- Mock search of four pages: three pages carrying cursors `c1 c2 c3` and
a fourth page with no next link (the C4 scenario); page shapes exercise
both accepted layouts. -/
def mkSearch4 (p1 p2 p3 p4 : List RawItem) (c1 c2 c3 : String) : SearchFun :=
  fun k _ =>
    match k with
    | 0 => .ok { data := some (.arr p1), next := some (.cursor (some c1)) }
    | 1 => .ok { data := some (.obj (some p2)), next := some (.cursor (some c2)) }
    | 2 => .ok { data := some (.arr p3), next := some (.cursor (some c3)) }
    | _ => .ok { data := some (.arr p4), next := none }

/-- Mock search for the mid-pagination failure scenario (C2): the first
page succeeds with items `p1` and cursor `c`; the second call fails with
the non-retriable error `e`. -/
def mkSearchFail (p1 : List RawItem) (c : String) (e : JsError) : SearchFun :=
  fun k _ =>
    match k with
    | 0 => .ok { data := some (.arr p1), next := some (.cursor (some c)) }
    | _ => .error e

end ApiClient

/-! ## Anomaly detector — `src/core/anomalyDetector.js` -/

namespace AnomalyDetector

/-- The static security-critical event-type list (constructor, lines 6-15;
the same list appears in `src/api/client.js` and `src/api/service.js`). -/
def securityCriticalEvents : List String :=
  ["org.policy.create", "org.policy.edit", "org.policy.delete",
   "org.ignore_policy.edit",
   "org.integration.create", "org.integration.delete", "org.integration.edit",
   "org.service_account.create", "org.service_account.delete",
   "org.service_account.edit",
   "org.settings.feature_flag.edit",
   "org.project.ignore.create", "org.project.ignore.delete",
   "org.project.ignore.edit",
   "org.sast_settings.edit",
   "org.webhook.add", "org.webhook.delete"]

/-- Detector state: the configurable business-hours window
(`this.businessHoursStart/End`, defaults 8 and 18; `setBusinessHours`
overwrites both). -/
structure Detector where
  businessHoursStart : Nat := 8
  businessHoursEnd : Nat := 18
  deriving DecidableEq, Repr

/-- `setBusinessHours(start, end)` (lines 36-39). -/
def setBusinessHours (_d : Detector) (start stop : Nat) : Detector :=
  { businessHoursStart := start, businessHoursEnd := stop }

/-- The actor of an event as the detector reads it:
`event.content?.user_id || event.content?.performed_by || 'unknown'`. -/
def eventUser (e : AuditEvent) : String :=
  jsOrS (e.content.bind EventContent.user_id)
    (jsOrS (e.content.bind EventContent.performed_by) "unknown")

/-- `new Date(ms).getUTCHours()` for an epoch-milliseconds timestamp. -/
def utcHours (created : Nat) : Nat := created / 3600000 % 24

/-- One anomaly record.  `count` is set by the volume rule, `time` by the
after-hours and service-account rules. -/
structure Anomaly where
  type : String
  user : String
  eventType : String
  count : Option Nat := none
  time : Option Nat := none
  severity : String
  description : String
  deriving DecidableEq, Repr

/-- `userEventCounts[u][t]`: how many events of `events` have actor `u`
and type `t` (the count accumulated by `_countUserEventTypes`,
lines 185-200). -/
def countUserEventType (events : List AuditEvent) (u t : String) : Nat :=
  (events.filter (fun e => eventUser e = u ∧ e.event = t)).length

/-- `Object.keys(userEventCounts)`: the actors, in first-occurrence
order. -/
def userKeys (events : List AuditEvent) : List String :=
  uniqKeys (events.map eventUser)

/-- `Object.keys(userEventCounts[u])`: the event types of actor `u`, in
first-occurrence order. -/
def typeKeysOf (events : List AuditEvent) (u : String) : List String :=
  uniqKeys ((events.filter (fun e => eventUser e = u)).map AuditEvent.event)

/-- The record rule 1 pushes for the key pair `(u, t)` (lines 57-67):
present when the count exceeds 5 and the type is security-critical. -/
def volumeRecord (events : List AuditEvent) (u t : String) : Option Anomaly :=
  let c := countUserEventType events u t
  if 5 < c ∧ t ∈ securityCriticalEvents then
    some { type := "high_volume_sensitive_actions", user := u,
           eventType := t, count := some c, severity := "medium",
           description := "User " ++ u ++ " performed " ++ t ++ " " ++
             toString c ++ " times" }
  else none

/-- Rule 1 (lines 49-69): iterate the (actor, event-type) key pairs of
the counts object, pushing the volume records. -/
def volumeAnomalies (events : List AuditEvent) : List Anomaly :=
  (userKeys events).flatMap fun u =>
    (typeKeysOf events u).filterMap (volumeRecord events u)

/-- The record rule 2 pushes for one event (lines 72-89): present when
the event is security-critical and its UTC hour is below
`businessHoursStart` or above `businessHoursEnd`.  (The description
string's ISO time rendering is abbreviated; no claim depends on it.) -/
def afterHoursRecord (d : Detector) (e : AuditEvent) : Option Anomaly :=
  let hour := utcHours e.created
  if (hour < d.businessHoursStart ∨ d.businessHoursEnd < hour) ∧
      e.event ∈ securityCriticalEvents then
    some { type := "after_hours_activity", user := eventUser e,
           eventType := e.event, time := some e.created,
           severity := "medium",
           description := "After-hours security-critical activity: " ++
             e.event ++ " by " ++ eventUser e }
  else none

/-- Rule 2 (lines 71-90): the after-hours records, one per qualifying
event, in event order. -/
def afterHoursAnomalies (d : Detector) (events : List AuditEvent) :
    List Anomaly :=
  events.filterMap (afterHoursRecord d)

/-- Substring test (`String.prototype.includes`) on character lists. -/
def includesChars (needle : List Char) : List Char → Bool
  | [] => needle.isPrefixOf []
  | c :: rest => needle.isPrefixOf (c :: rest) || includesChars needle rest

/-- `a.includes(b)` for strings. -/
def jsIncludes (hay needle : String) : Bool :=
  includesChars needle.data hay.data

/-- `a.startsWith(b)` for strings. -/
def jsStartsWith (hay needle : String) : Bool :=
  needle.data.isPrefixOf hay.data

/-- The record rule 3 pushes for one event (lines 93-113): present for a
security-critical event whose actor's lower-cased identifier contains
`service`, `bot`, `auto` or `jenkins`, excluding events whose type starts
with `org.project.test`. -/
def serviceAccountRecord (e : AuditEvent) : Option Anomaly :=
  let u := eventUser e
  let lu : String := ⟨lowStr u.data⟩
  if (jsIncludes lu "service" || jsIncludes lu "bot" ||
      jsIncludes lu "auto" || jsIncludes lu "jenkins") &&
     !jsStartsWith e.event "org.project.test" &&
     decide (e.event ∈ securityCriticalEvents) then
    some { type := "service_account_unusual_activity", user := u,
           eventType := e.event, time := some e.created,
           severity := "high",
           description := "Service account " ++ u ++
             " performed security-critical action " ++ e.event }
  else none

/-- Rule 3 (lines 92-114): the service-account records, one per
qualifying event, in event order. -/
def serviceAccountAnomalies (events : List AuditEvent) : List Anomaly :=
  events.filterMap serviceAccountRecord

/-- `detectAnomalies(events)` (lines 46-117): the three rules' records in
push order — all volume records, then all after-hours records, then all
service-account records. -/
def detectAnomalies (d : Detector) (events : List AuditEvent) :
    List Anomaly :=
  volumeAnomalies events ++ afterHoursAnomalies d events ++
    serviceAccountAnomalies events

end AnomalyDetector

/-! ## Regular-expression test semantics

`IntentRecognizer.recognizeIntent` only uses `RegExp.prototype.test`, so a
Boolean (Brzozowski-derivative) matcher suffices here.  All the intent
patterns carry the `/i` flag; matching is therefore performed with both
the pattern literals and the input lower-cased (the recognizer lower-cases
its input anyway). -/

/-- Character atoms appearing in the intent patterns: a (lower-cased,
case-insensitively matched) literal, the `\w` class, and `.`. -/
inductive CC where
  | lit (c : Char)
  | wordc
  | anyc
  deriving DecidableEq, Repr

/-- Atom matching.  `\w` is `[A-Za-z0-9_]`; `.` matches anything but a
line terminator. -/
def ccMatch : CC → Char → Bool
  | .lit c, x => lowChar x = c
  | .wordc, x => x.isAlphanum || x = '_'
  | .anyc, x =>
    !(x = '\n' || x = '\r' || x.toNat = 0x2028 || x.toNat = 0x2029)

/-- Regular expressions over `CC` atoms (capturing groups are irrelevant
to `test` and are dropped; alternation and concatenation as usual). -/
inductive RE where
  | fail
  | eps
  | cc (k : CC)
  | cat (a b : RE)
  | alt (a b : RE)
  | star (a : RE)
  deriving DecidableEq, Repr

/-- Nullability: does the expression accept the empty string? -/
def nullable : RE → Bool
  | .fail => false
  | .eps => true
  | .cc _ => false
  | .cat a b => nullable a && nullable b
  | .alt a b => nullable a || nullable b
  | .star _ => true

/-- Brzozowski derivative with respect to one character. -/
def deriv : RE → Char → RE
  | .fail, _ => .fail
  | .eps, _ => .fail
  | .cc k, c => if ccMatch k c then .eps else .fail
  | .cat a b, c =>
    if nullable a then .alt (.cat (deriv a c) b) (deriv b c)
    else .cat (deriv a c) b
  | .alt a b, c => .alt (deriv a c) (deriv b c)
  | .star a, c => .cat (deriv a c) (.star a)

/-- Whole-string acceptance. -/
def matchFull (r : RE) (s : List Char) : Bool :=
  nullable (s.foldl deriv r)

/-- Does some prefix of `s` match `r`? -/
def prefixMatch (r : RE) : List Char → Bool
  | [] => nullable r
  | c :: cs => nullable r || prefixMatch (deriv r c) cs

/-- `RegExp.prototype.test` for an unanchored pattern: does some
substring of `s` match `r`? -/
def testRE (r : RE) : List Char → Bool
  | [] => nullable r
  | c :: cs => prefixMatch r (c :: cs) || testRE r cs

/-- A JS regex as the recognizer holds it: the expression, its
`toString()` source (used by `_calculateConfidence`), and whether it is
anchored as `^...$` (only `/^user activity$/i` is). -/
structure JsRegex where
  re : RE
  src : String
  anchored : Bool := false
  deriving DecidableEq, Repr

/-- `pattern.test(s)`. -/
def jsTest (p : JsRegex) (s : List Char) : Bool :=
  if p.anchored then matchFull p.re s else testRE p.re s

/-- Apostrophe character (used by the `/(\w+)'s activity/i` pattern). -/
def apos : Char := Char.ofNat 39

/-- Literal character atom (lower-cased: all patterns carry `/i`). -/
def rchar (c : Char) : RE := .cc (.lit (lowChar c))

/-- Literal string as a regex. -/
def rstr (s : String) : RE :=
  s.data.foldr (fun c r => .cat (rchar c) r) .eps

/-- Alternation of a list of expressions. -/
def altRE : List RE → RE
  | [] => .fail
  | [r] => r
  | r :: rest => .alt r (altRE rest)

/-- Alternation of literal strings — `(a|b|c)`. -/
def altS (ss : List String) : RE := altRE (ss.map rstr)

/-- Greedy option `(...)?` (greediness is irrelevant to `test`). -/
def ropt (r : RE) : RE := .alt r .eps

/-- `\w+`. -/
def wplus : RE := .cat (.cc .wordc) (.star (.cc .wordc))

/-- `(.*)`. -/
def dotStar : RE := .star (.cc .anyc)

/-! ## Intent recognizer — `src/nlp/intentRecognizer.js`

The pattern tables below transcribe `this.intentPatterns` of the
superseding revision (the one declaring `event_by_user_query` first); the
`src` strings are the exact `RegExp.prototype.toString()` renderings used
by `_calculateConfidence`. -/

namespace IntentRecognizer

/-- `event_by_user_query` patterns. -/
def eventByUserPatterns : List JsRegex :=
  [ { re := .cat (rstr "who ")
        (altS ["modified", "changed", "updated", "created", "deleted",
               "added", "removed"]),
      src := "/who (modified|changed|updated|created|deleted|added|removed)/i" },
    { re := rstr "show me users who", src := "/show me users who/i" },
    { re := rstr "which users", src := "/which users/i" },
    { re := rstr "list users that", src := "/list users that/i" } ]

/-- `security_events_query` patterns. -/
def securityPatterns : List JsRegex :=
  [ { re := .cat (rstr "security ") (altS ["events", "incidents"]),
      src := "/security (events|incidents)/i" },
    { re := .cat (rstr "recent ")
        (.cat (ropt (.cat wplus (rchar ' '))) (rstr "security")),
      src := "/recent (\\w+ )?security/i" },
    { re := rstr "show me security", src := "/show me security/i" },
    { re := .cat (altS ["any", "recent"])
        (.cat (rchar ' ')
          (.cat (ropt (rstr "security "))
            (altS ["issues", "events", "incidents"]))),
      src := "/(any|recent) (security )?(issues|events|incidents)/i" },
    { re := .cat (rstr "security ") (altS ["concerns", "problems"]),
      src := "/security (concerns|problems)/i" },
    { re := rstr "policy changes", src := "/policy changes/i" },
    { re := .cat (rstr "integration ") (altS ["changes", "updates"]),
      src := "/integration (changes|updates)/i" },
    { re := .cat (rstr "webhook ") (altS ["changes", "updates"]),
      src := "/webhook (changes|updates)/i" },
    { re := rstr "service account changes",
      src := "/service account changes/i" },
    { re := rstr "project changes", src := "/project changes/i" },
    { re := rstr "sast settings changes",
      src := "/sast settings changes/i" } ]

/-- `user_activity_query` patterns. -/
def userActivityPatterns : List JsRegex :=
  [ { re := rstr "user activity", src := "/^user activity$/i",
      anchored := true },
    { re := rstr "all user activity", src := "/all user activity/i" },
    { re := rstr "show me user activity",
      src := "/show me user activity/i" },
    { re := rstr "list user activity", src := "/list user activity/i" },
    { re := rstr "user actions", src := "/user actions/i" },
    { re := rstr "user behavior", src := "/user behavior/i" },
    { re := .cat (rstr "who ") (altS ["has been active", "did what"]),
      src := "/who (has been active|did what)/i" },
    { re := rstr "active users", src := "/active users/i" },
    { re := rstr "most active users", src := "/most active users/i" },
    { re := .cat (rstr "show me ")
        (.cat (ropt (rstr "a list of ")) (rstr "users")),
      src := "/show me (a list of )?users/i" },
    { re := .cat (rstr "list ") (.cat (ropt (rstr "all ")) (rstr "users")),
      src := "/list (all )?users/i" },
    { re := rstr "get users", src := "/get users/i" },
    { re := rstr "user list", src := "/user list/i" },
    { re := .cat (rstr "what ")
        (.cat (altS ["has", "did"])
          (.cat (rchar ' ')
            (.cat wplus (.cat (rchar ' ') (altS ["do", "done"]))))),
      src := "/what (has|did) (\\w+) (do|done)/i" },
    { re := .cat (rstr "show me what ")
        (.cat wplus (.cat (rchar ' ') (altS ["did", "has done"]))),
      src := "/show me what (\\w+) (did|has done)/i" },
    { re := .cat wplus (.cat (.cc (.lit apos)) (rstr "s activity")),
      src := "/(\\w+)" ++ ⟨[apos]⟩ ++ "s activity/i" },
    { re := .cat (rstr "activity by ") wplus,
      src := "/activity by (\\w+)/i" },
    { re := .cat (rstr "actions ")
        (.cat (altS ["by", "from"]) (.cat (rchar ' ') wplus)),
      src := "/actions (by|from) (\\w+)/i" } ]

/-- `suspicious_activity_query` patterns. -/
def suspiciousPatterns : List JsRegex :=
  [ { re := rstr "suspicious activity", src := "/suspicious activity/i" },
    { re := .cat (rstr "unusual ") (altS ["behavior", "activity"]),
      src := "/unusual (behavior|activity)/i" },
    { re := rstr "detect anomalies", src := "/detect anomalies/i" },
    { re := rstr "any suspicious", src := "/any suspicious/i" },
    { re := rstr "strange patterns", src := "/strange patterns/i" },
    { re := rstr "security anomalies", src := "/security anomalies/i" },
    { re := rstr "after hours activity", src := "/after hours activity/i" },
    { re := rstr "unexpected changes", src := "/unexpected changes/i" },
    { re := .cat (rstr "potential security ")
        (altS ["issues", "breaches"]),
      src := "/potential security (issues|breaches)/i" },
    { re := rstr "anomalous behavior", src := "/anomalous behavior/i" } ]

/-- `time_based_query` patterns. -/
def timeBasedPatterns : List JsRegex :=
  [ { re := .cat (rstr "what happened ")
        (altS ["last night", "yesterday", "over the weekend"]),
      src := "/what happened (last night|yesterday|over the weekend)/i" },
    { re := .cat (rstr "show me ")
        (.cat (altS ["activity", "events", "logs"])
          (.cat (rchar ' ')
            (.cat (altS ["from", "during", "in"])
              (.cat (rchar ' ') dotStar)))),
      src := "/show me (activity|events|logs) (from|during|in) (.*)/i" },
    { re := .cat (altS ["last night", "weekend", "after hours"])
        (rstr " activity"),
      src := "/(last night|weekend|after hours) activity/i" },
    { re := .cat (rstr "activity ") (altS ["between", "from", "during"]),
      src := "/activity (between|from|during)/i" },
    { re := .cat (rstr "logs from ") dotStar, src := "/logs from (.*)/i" },
    { re := .cat (rstr "events in the last ") dotStar,
      src := "/events in the last (.*)/i" },
    { re := .cat (altS ["morning", "afternoon", "evening", "night"])
        (rstr " activity"),
      src := "/(morning|afternoon|evening|night) activity/i" } ]

/-- `help_request` patterns. -/
def helpPatterns : List JsRegex :=
  [ { re := rstr "help", src := "/help/i" },
    { re := .cat (rstr "what can you ") (altS ["do", "tell me"]),
      src := "/what can you (do|tell me)/i" },
    { re := .cat (rstr "how ")
        (.cat (altS ["do", "can"]) (rstr " i use")),
      src := "/how (do|can) I use/i" },
    { re := .cat (rstr "what ") (altS ["questions", "commands"]),
      src := "/what (questions|commands)/i" },
    { re := rstr "available commands", src := "/available commands/i" },
    { re := rstr "show options", src := "/show options/i" },
    { re := rstr "commands", src := "/commands/i" },
    { re := rstr "capabilities", src := "/capabilities/i" },
    { re := rstr "examples", src := "/examples/i" },
    { re := rstr "how does this work", src := "/how does this work/i" } ]

/-- `this.intentPatterns`, in declaration (= `Object.entries`) order. -/
def intentTable : List (String × List JsRegex) :=
  [ ("event_by_user_query", eventByUserPatterns),
    ("security_events_query", securityPatterns),
    ("user_activity_query", userActivityPatterns),
    ("suspicious_activity_query", suspiciousPatterns),
    ("time_based_query", timeBasedPatterns),
    ("help_request", helpPatterns) ]

/-- The primary pass (lines 107-113): first intent, in table order, one of
whose patterns tests true on the normalized message; that pattern is the
one whose confidence is reported. -/
def firstMatchIn (msg : List Char) :
    List (String × List JsRegex) → Option (String × JsRegex)
  | [] => none
  | (intent, ps) :: rest =>
    match ps.find? (fun p => jsTest p msg) with
    | some p => some (intent, p)
    | none => firstMatchIn msg rest

/-- The non-overlapping count of `/\([^?]/g` matches in a pattern source
string (`groupCount` of `_calculateConfidence`): an opening parenthesis
followed by a non-`?` character, scanning left to right. -/
def countGroups : List Char → Nat
  | '(' :: c :: rest =>
    if c ≠ '?' then 1 + countGroups rest else countGroups (c :: rest)
  | _ :: rest => countGroups rest
  | [] => 0

/-- The count of `/\?/g` matches (`optionalCount`). -/
def countQMarks (l : List Char) : Nat := (l.filter (· = '?')).length

/-- `_calculateConfidence(message, pattern, intent)` (lines 125-139):
base 0.85, +0.03 per counted group, −0.02 per `?`, +0.1 when the pattern
source contains the message, capped at 0.99. -/
def calcConfidence (p : JsRegex) (msg : List Char) : ℚ :=
  let g : ℚ := countGroups p.src.data
  let o : ℚ := countQMarks p.src.data
  let base : ℚ := 85/100 + g * (3/100) - o * (2/100)
  let conf : ℚ :=
    if AnomalyDetector.includesChars msg p.src.data then base + 1/10
    else base
  min conf (99/100)

/-- The per-intent keyword lists of `_scoreIntentsByKeywords`
(lines 144-155). -/
def intentKeywords : List (String × List String) :=
  [ ("event_by_user_query", ["who", "users", "which user", "list users"]),
    ("security_events_query",
      ["security", "policy", "event", "incident", "issue", "changes",
       "integration", "webhook", "service account", "project", "sast"]),
    ("user_activity_query",
      ["user", "activity", "actions", "behavior", "did", "done", "doing",
       "perform", "active", "users", "all users", "most active",
       "list users", "user list", "show users"]),
    ("suspicious_activity_query",
      ["suspicious", "unusual", "anomaly", "strange", "unexpected",
       "abnormal", "after hours"]),
    ("time_based_query",
      ["when", "time", "yesterday", "today", "last night", "weekend",
       "morning", "afternoon", "evening", "night", "hour", "day", "week",
       "month"]),
    ("help_request",
      ["help", "assist", "how", "what", "guide", "explain", "show me",
       "instructions", "commands", "options"]) ]

/-- A keyword hit: the constructed regex `` \bkw\b|kw `` tests true exactly
when the keyword occurs as a substring (its second alternative is the bare
keyword). -/
def keywordHit (msg : List Char) (kw : String) : Bool :=
  AnomalyDetector.includesChars kw.data msg

/-- Number of `message.split(/\s+/)` parts for an already-trimmed
message (the recognizer always scores the trimmed, lower-cased text):
the number of maximal non-whitespace runs, and 1 for the empty string. -/
def wsRunsAux : List Char → Bool → Nat
  | [], _ => 0
  | c :: rest, inRun =>
    if isWsChar c then wsRunsAux rest false
    else (if inRun then 0 else 1) + wsRunsAux rest true

/-- Word count of the trimmed message. -/
def wordCountOf (msg : List Char) : Nat :=
  if msg.isEmpty then 1 else wsRunsAux msg false

/-- Keyword fold of one intent: (match count, accumulated score); each
hit adds 0.2, multi-word keywords add another 0.1. -/
def scoreFor (msg : List Char) (kws : List String) : Nat × ℚ :=
  kws.foldl
    (fun acc kw =>
      if keywordHit msg kw then
        (acc.1 + 1,
         acc.2 + 2/10 + (if kw.data.contains ' ' then 1/10 else 0))
      else acc)
    (0, 0)

/-- `_scoreIntentsByKeywords` (lines 141-179): intents with at least one
keyword hit, each scored and given the coverage bonus
`min(0.3, matchCount/wordCount * 0.5)`, capped at 0.95. -/
def scoredIntents (msg : List Char) : List (String × ℚ) :=
  intentKeywords.filterMap fun ik =>
    let mc := (scoreFor msg ik.2).1
    let sc := (scoreFor msg ik.2).2
    if 0 < mc then
      some (ik.1,
        min (sc + min (3/10) ((mc : ℚ) / (wordCountOf msg : ℚ) * (1/2)))
          (95/100))
    else none

/-- `scoredIntents[0]` after the stable descending sort: the earliest
entry of maximal score. -/
def pickBest : List (String × ℚ) → Option (String × ℚ)
  | [] => none
  | x :: rest =>
    match pickBest rest with
    | none => some x
    | some y => if x.2 < y.2 then some y else some x

/-- `recognizeIntent`'s result object. -/
structure IntentResult where
  intent : String
  confidence : ℚ
  message : String
  deriving DecidableEq, Repr

/-- `message.trim().toLowerCase()`. -/
def normMsg (s : String) : List Char := lowStr (jsTrim s.data)

/-- `recognizeIntent(message)` (lines 100-123).  A missing/non-string
message is `none`; the empty string is falsy and takes the same early
return. -/
def recognizeIntent (message : Option String) : IntentResult :=
  match message with
  | none => { intent := "help_request", confidence := 1,
              message := "Empty or invalid message" }
  | some m =>
    if m = "" then
      { intent := "help_request", confidence := 1,
        message := "Empty or invalid message" }
    else
      let nm := normMsg m
      match firstMatchIn nm intentTable with
      | some ip =>
        { intent := ip.1, confidence := calcConfidence ip.2 nm,
          message := m }
      | none =>
        match pickBest (scoredIntents nm) with
        | some best =>
          if 3/10 ≤ best.2 then
            { intent := best.1, confidence := best.2, message := m }
          else
            { intent := "help_request", confidence := 1, message := m }
        | none => { intent := "help_request", confidence := 1, message := m }

end IntentRecognizer

/-! ## Regular-expression match semantics with capture groups

`EntityExtractor` uses `String.prototype.match`, which needs the match
array: leftmost match position, the full match `match[0]`, and the
capture groups.  This is modelled by a backtracking enumerator that lists
candidate continuations in JS priority order (alternation left-to-right,
quantifiers greedy); the head of the enumeration at the leftmost viable
start position is the JS match. -/

/-- Character atoms of the extractor patterns.  All letter classes occur
under the `/i` flag, so `[A-Z]` and `[a-z]` both denote an ASCII letter. -/
inductive BCC where
  | lit (c : Char)
  | wordc
  | wdd
  | digit
  | alpha
  | range14
  | anyc
  deriving DecidableEq, Repr

/-- Atom matching (`lit` holds the lower-cased literal; input characters
are folded for the comparison, giving `/i` semantics). -/
def bccMatch : BCC → Char → Bool
  | .lit c, x => lowChar x = c
  | .wordc, x => x.isAlphanum || x = '_'
  | .wdd, x => x.isAlphanum || x = '_' || x = '.' || x = '-'
  | .digit, x => x.isDigit
  | .alpha, x => x.isAlpha
  | .range14, x => '1' ≤ x ∧ x ≤ '4'
  | .anyc, x =>
    !(x = '\n' || x = '\r' || x.toNat = 0x2028 || x.toNat = 0x2029)

/-- Regexes with numbered capture groups and negative lookahead. -/
inductive BRE where
  | eps
  | cc (k : BCC)
  | cat (a b : BRE)
  | alt (a b : BRE)
  | star (a : BRE)
  | grp (i : Nat) (a : BRE)
  | nla (a : BRE)
  deriving DecidableEq, Repr

/-- Capture store: `(group index, start, length)`, most recent first. -/
def Caps : Type := List (Nat × Nat × Nat)

/-- Record capture `i` (a later write shadows an earlier one, as in JS). -/
def setCap (caps : Caps) (i s l : Nat) : Caps := (i, s, l) :: caps

/-- Read capture `i`. -/
def lookupCap (caps : Caps) (i : Nat) : Option (Nat × Nat) :=
  (caps.find? (fun c => c.1 = i)).map (fun c => c.2)

/-- Enumerate the ways `r` can match a prefix of `s` (which starts at
absolute position `pos`), in JS backtracking priority order; each way
yields the new position, the remaining suffix, and the capture store.
`fuel` bounds recursion depth; zero-width `star` iterations are cut off
(as the JS engine does), so ample fuel yields the JS semantics. -/
def bm : Nat → BRE → Nat → List Char → Caps → List (Nat × List Char × Caps)
  | 0, _, _, _, _ => []
  | _ + 1, .eps, pos, s, caps => [(pos, s, caps)]
  | _ + 1, .cc k, pos, s, caps =>
    match s with
    | [] => []
    | c :: rest => if bccMatch k c then [(pos + 1, rest, caps)] else []
  | fuel + 1, .cat a b, pos, s, caps =>
    (bm fuel a pos s caps).flatMap fun st => bm fuel b st.1 st.2.1 st.2.2
  | fuel + 1, .alt a b, pos, s, caps =>
    bm fuel a pos s caps ++ bm fuel b pos s caps
  | fuel + 1, .star a, pos, s, caps =>
    ((bm fuel a pos s caps).flatMap fun st =>
      if pos < st.1 then bm fuel (.star a) st.1 st.2.1 st.2.2 else []) ++
      [(pos, s, caps)]
  | fuel + 1, .grp i a, pos, s, caps =>
    (bm fuel a pos s caps).map fun st =>
      (st.1, st.2.1, setCap st.2.2 i pos (st.1 - pos))
  | fuel + 1, .nla a, pos, s, caps =>
    if (bm fuel a pos s caps).isEmpty then [(pos, s, caps)] else []

/-- Recursion-depth budget (far above what the extractor patterns need on
chat-sized inputs). -/
def bFuel : Nat := 400

/-- The slice `full[start ... start+len)`. -/
def sliceChars (full : List Char) (start len : Nat) : List Char :=
  (full.drop start).take len

/-- A JS match array: start offset, `match[0]`, and the capture groups
`match[1..]` (`none` = a group that did not participate, i.e.
`undefined`). -/
structure JsMatch where
  start : Nat
  m0 : List Char
  groups : List (Option (List Char))
  deriving DecidableEq, Repr

/-- A pattern together with its number of capture groups (so the length
of the produced match array is `ngroups + 1`). -/
structure BPattern where
  re : BRE
  ngroups : Nat
  deriving DecidableEq, Repr

/-- Try the pattern at one start position; the head of the enumeration is
the JS engine's choice. -/
def execAt (p : BPattern) (full : List Char) (pos : Nat) : Option JsMatch :=
  match bm bFuel p.re pos (full.drop pos) [] with
  | [] => none
  | st :: _ =>
    some { start := pos, m0 := sliceChars full pos (st.1 - pos),
           groups := (List.range p.ngroups).map fun i =>
             (lookupCap st.2.2 (i + 1)).map fun sl =>
               sliceChars full sl.1 sl.2 }

/-- `message.match(pattern)` for a non-global pattern: the match at the
leftmost viable start position. -/
def jsMatchRE (p : BPattern) (full : List Char) : Option JsMatch :=
  (List.range (full.length + 1)).findSome? (execAt p full)

/-- `match[i]` for `i ≥ 1` (out-of-range indices are `undefined`, like
JS). -/
def groupAt (m : JsMatch) (i : Nat) : Option (List Char) :=
  ((m.groups.get? i).getD none)

/-- Truthiness of a possibly-`undefined` string value. -/
def truthyChars : Option (List Char) → Bool
  | none => false
  | some [] => false
  | some (_ :: _) => true

/-- `a || b` over possibly-`undefined` strings. -/
def orTruthyChars (a : Option (List Char)) (b : List Char) : List Char :=
  if truthyChars a then a.getD [] else b

/-- `parseInt(s, 10)`: skip leading whitespace, optional sign, then a
nonempty digit run; `none` is `NaN`. -/
def jsParseInt10 (s : List Char) : Option Int :=
  let rec digits : List Char → Nat → Bool → Option Nat
    | [], acc, seen => if seen then some acc else none
    | c :: rest, acc, seen =>
      if c.isDigit then digits rest (acc * 10 + (c.toNat - '0'.toNat)) true
      else if seen then some acc else none
  let t := s.dropWhile isWsChar
  match t with
  | '-' :: rest => (digits rest 0 false).map fun n => -(n : Int)
  | '+' :: rest => (digits rest 0 false).map fun n => (n : Int)
  | rest => (digits rest 0 false).map fun n => (n : Int)

/-- `s.split(sep)` for a single-character separator (empty parts kept). -/
def splitChar (sep : Char) : List Char → List (List Char)
  | [] => [[]]
  | c :: rest =>
    let parts := splitChar sep rest
    if c = sep then [] :: parts
    else
      match parts with
      | [] => [[c]]
      | p :: ps => (c :: p) :: ps

/-- `s.replace(needle, '')` for a plain first-occurrence removal (the
extractor's `replace(/changes/i, '')` runs on an already lower-cased
string, and `replace(/s$/, '')` is handled separately). -/
def removeFirst (needle : List Char) : List Char → List Char
  | [] => []
  | c :: rest =>
    if needle.isPrefixOf (c :: rest) then (c :: rest).drop needle.length
    else c :: removeFirst needle rest

/-- `s.replace(/s$/, '')`: drop one trailing `s`. -/
def stripTrailingS (s : List Char) : List Char :=
  match s.reverse with
  | 's' :: rest => rest.reverse
  | _ => s

/-! ## Entity extractor — `src/nlp/entityExtractor.js` -/

namespace EntityExtractor

/-- Literal character (lower-cased; every letterful pattern carries
`/i`). -/
def blit (c : Char) : BRE := .cc (.lit (lowChar c))

/-- Literal string. -/
def bstr (s : String) : BRE :=
  s.data.foldr (fun c r => .cat (blit c) r) .eps

/-- Alternation of a list (the empty case never arises; `(?!)` never
matches). -/
def baltRE : List BRE → BRE
  | [] => .nla .eps
  | [r] => r
  | r :: rest => .alt r (baltRE rest)

/-- Alternation of literal strings. -/
def baltS (ss : List String) : BRE := baltRE (ss.map bstr)

/-- Greedy `(...)?`. -/
def bopt (r : BRE) : BRE := .alt r .eps

/-- Greedy `x+`. -/
def bplus (r : BRE) : BRE := .cat r (.star r)

/-- `[A-Z][a-z]+` under `/i`: a letter then one or more letters. -/
def properName : BRE := .cat (.cc .alpha) (bplus (.cc .alpha))

/-- Greedy `.*`. -/
def bdotStar : BRE := .star (.cc .anyc)

/-- `\d+`. -/
def digits1 : BRE := bplus (.cc .digit)

/-- `\d{1,2}` (greedy). -/
def digits12 : BRE := .cat (.cc .digit) (bopt (.cc .digit))

/-- `user_id` patterns (lines 11-25), in order. -/
def userIdPatterns : List BPattern :=
  [ { re := .cat (blit '@') (.grp 1 (bplus (.cc .wdd))), ngroups := 1 },
    { re := .cat (bstr "user ") (.grp 1 (bplus (.cc .wdd))), ngroups := 1 },
    { re := .cat (bstr "what ")
        (.cat (.grp 1 (baltS ["has", "did"]))
          (.cat (blit ' ') (.grp 2 properName))), ngroups := 2 },
    { re := .cat (.grp 1 properName)
        (.cat (blit apos) (bstr "s activity")), ngroups := 1 },
    { re := .cat (bstr "activity ")
        (.cat (.grp 1 (baltS ["by", "for", "of"]))
          (.cat (blit ' ') (.grp 2 properName))), ngroups := 2 },
    { re := .cat (bstr "activity ")
        (.cat (.grp 1 (baltS ["by", "for", "of"]))
          (.cat (blit ' ')
            (.cat (.nla (bstr "activity")) (.grp 2 properName)))),
      ngroups := 2 },
    { re := .cat (bstr "actions ")
        (.cat (.grp 1 (baltS ["by", "from"]))
          (.cat (blit ' ') (.grp 2 properName))), ngroups := 2 },
    { re := .cat (bstr "what ")
        (.cat (.grp 1 properName)
          (.cat (blit ' ') (.grp 2 (baltS ["has", "did", "was"])))),
      ngroups := 2 },
    { re := .cat (bstr "show ") (.grp 1 properName), ngroups := 1 },
    { re := .cat (bstr "about ") (.grp 1 properName), ngroups := 1 } ]

/-- Time units of the numbered `time_period` patterns. -/
def timeUnits : List String := ["days", "hours", "weeks", "months", "years"]

/-- `time_period` patterns (lines 27-37), in order. -/
def timePeriodPatterns : List BPattern :=
  [ { re := .cat (bstr "last ")
        (.cat (.grp 1 digits1) (.cat (blit ' ') (.grp 2 (baltS timeUnits)))),
      ngroups := 2 },
    { re := .cat (bstr "past ")
        (.cat (.grp 1 digits1) (.cat (blit ' ') (.grp 2 (baltS timeUnits)))),
      ngroups := 2 },
    { re := .cat (.grp 1 digits1)
        (.cat (blit ' ') (.cat (.grp 2 (baltS timeUnits)) (bstr " ago"))),
      ngroups := 2 },
    { re := .cat (bstr "last ")
        (.grp 1 (baltS ["day", "week", "month", "year", "hour"])),
      ngroups := 1 },
    { re := bstr "yesterday", ngroups := 0 },
    { re := bstr "today", ngroups := 0 },
    { re := .cat (bstr "this ") (.grp 1 (baltS ["week", "month", "year"])),
      ngroups := 1 },
    { re := .cat (bstr "recent") (bopt (.grp 1 (bstr "ly"))), ngroups := 1 },
    { re := .cat (bstr "since ")
        (.grp 1 (baltS ["yesterday", "last week", "last month"])),
      ngroups := 1 } ]

/-- `time_range` patterns (lines 39-48), in order. -/
def timeRangePatterns : List BPattern :=
  [ { re := bstr "last night", ngroups := 0 },
    { re := bstr "overnight", ngroups := 0 },
    { re := bstr "weekend", ngroups := 0 },
    { re := bstr "after hours", ngroups := 0 },
    { re := .cat (bstr "between ")
        (.cat (.grp 1 bdotStar) (.cat (bstr " and ") (.grp 2 bdotStar))),
      ngroups := 2 },
    { re := .cat (bstr "from ")
        (.cat (.grp 1 bdotStar) (.cat (bstr " to ") (.grp 2 bdotStar))),
      ngroups := 2 },
    { re := .cat (bstr "during ")
        (.grp 1 (baltS ["morning", "afternoon", "evening", "night"])),
      ngroups := 1 },
    { re := .cat (bstr "during ") (.grp 1 bdotStar), ngroups := 1 } ]

/-- `event_type` patterns (lines 51-64), in order. -/
def eventTypePatterns : List BPattern :=
  [ { re := bstr "policy changes", ngroups := 0 },
    { re := bstr "integration changes", ngroups := 0 },
    { re := bstr "webhook changes", ngroups := 0 },
    { re := bstr "service account changes", ngroups := 0 },
    { re := bstr "project changes", ngroups := 0 },
    { re := bstr "user changes", ngroups := 0 },
    { re := bstr "role changes", ngroups := 0 },
    { re := bstr "sast settings changes", ngroups := 0 },
    { re := bstr "target changes", ngroups := 0 },
    { re := bstr "app changes", ngroups := 0 },
    { re := bstr "collection changes", ngroups := 0 },
    { re := .cat
        (.grp 1 (baltS ["modified", "changed", "updated", "created",
                        "deleted", "added", "removed"]))
        (.cat (blit ' ')
          (.grp 2 (baltS ["integrations", "policies", "webhooks", "users",
                          "roles", "projects", "service accounts",
                          "sast settings", "targets", "apps",
                          "collections"]))),
      ngroups := 2 } ]

/-- `count_limit` patterns (lines 66-73), in order. -/
def countLimitPatterns : List BPattern :=
  [ { re := .cat (bstr "top ") (.grp 1 digits1), ngroups := 1 },
    { re := .cat (bstr "first ") (.grp 1 digits1), ngroups := 1 },
    { re := .cat (bstr "last ") (.grp 1 digits1), ngroups := 1 },
    { re := .cat (.grp 1 digits1) (bstr " most"), ngroups := 1 },
    { re := .cat (bstr "limit ") (.grp 1 digits1), ngroups := 1 },
    { re := .cat (.grp 1 digits1) (bstr " results"), ngroups := 1 } ]

/-- Month names of the secondary date patterns. -/
def monthNames : List String :=
  ["january", "february", "march", "april", "may", "june", "july",
   "august", "september", "october", "november", "december"]

/-- Weekday names of the secondary date patterns. -/
def weekdayNames : List String :=
  ["monday", "tuesday", "wednesday", "thursday", "friday", "saturday",
   "sunday"]

/-- The secondary `datePatterns` of `_extractTimeEntity`
(lines 155-164), each tagged with the entity kind it produces
(`true` = `time_period`, `false` = `time_range`). -/
def datePatterns : List (BPattern × Bool) :=
  [ ({ re := .cat (bstr "since ")
         (.cat (.grp 1 (baltS ["last", "this"]))
           (.cat (blit ' ') (.grp 2 (baltS weekdayNames)))),
       ngroups := 2 }, true),
    ({ re := .cat (.grp 1 (baltS monthNames))
         (.cat (blit ' ')
           (.cat (.grp 2 digits12)
             (bopt (.grp 3 (baltS ["st", "nd", "rd", "th"]))))),
       ngroups := 3 }, false),
    ({ re := .cat (.grp 1 digits12)
         (.cat (bopt (.grp 2 (baltS ["st", "nd", "rd", "th"])))
           (.cat (bstr " of ") (.grp 3 (baltS monthNames)))),
       ngroups := 3 }, false),
    ({ re := .cat (bstr "from ")
         (.cat bdotStar (.cat (bstr " until ") bdotStar)), ngroups := 0 },
      false),
    ({ re := bstr "last quarter", ngroups := 0 }, true),
    ({ re := .cat (blit 'q') (.cc .range14), ngroups := 0 }, false),
    ({ re := .cat (bstr "first half of ")
         (.cat (bopt (.grp 1 (bstr "the ")))
           (.grp 2 (baltS ["day", "week", "month", "year"]))),
       ngroups := 2 }, false),
    ({ re := .cat (bstr "second half of ")
         (.cat (bopt (.grp 1 (bstr "the ")))
           (.grp 2 (baltS ["day", "week", "month", "year"]))),
       ngroups := 2 }, false) ]

/-- An extracted entity value: a string, an integer (`count_limit`), or
JS `undefined` (assignable, unlike `null` which is filtered out). -/
inductive EntityVal where
  | undef
  | str (s : List Char)
  | num (n : Int)
  deriving DecidableEq, Repr

/-- `_processTimePeriod(match)` (lines 134-152). -/
def processTimePeriod (m : JsMatch) : List Char :=
  let m1 := groupAt m 0
  let low0 := lowStr m.m0
  if truthyChars m1 ∧ (jsParseInt10 (m1.getD [])).isSome then
    (m1.getD []) ++ (' ' :: orTruthyChars (groupAt m 1) "days".data)
  else if AnomalyDetector.includesChars "last".data low0 then
    "last ".data ++
      orTruthyChars m1
        (orTruthyChars ((splitChar ' ' m.m0).get? 1) "day".data)
  else if AnomalyDetector.includesChars "yesterday".data low0 then
    "yesterday".data
  else if AnomalyDetector.includesChars "today".data low0 then
    "today".data
  else if AnomalyDetector.includesChars "this".data low0 then
    "this ".data ++ orTruthyChars ((splitChar ' ' m.m0).get? 1) "day".data
  else if AnomalyDetector.includesChars "recent".data low0 then
    "recent".data
  else m.m0

/-- The per-kind `switch` of `_extractEntityWithPatterns`
(lines 105-127), applied to the match of the first matching pattern;
`none` models a `null` return (the key is then not set). -/
def entitySwitch (kind : String) (p : BPattern) (m : JsMatch) :
    Option EntityVal :=
  if kind = "user_id" then
    -- match[match.length - 1]
    if p.ngroups = 0 then some (.str m.m0)
    else
      match groupAt m (p.ngroups - 1) with
      | some v => some (.str v)
      | none => some .undef
  else if kind = "time_period" then some (.str (processTimePeriod m))
  else if kind = "time_range" then some (.str m.m0)
  else if kind = "event_type" then
    if truthyChars (groupAt m 1) then
      some (.str (stripTrailingS ((groupAt m 1).getD []) ++
        (' ' :: (groupAt m 0).getD [])))
    else
      some (.str (jsTrim (removeFirst "changes".data (lowStr m.m0))))
  else if kind = "count_limit" then
    match jsParseInt10 ((groupAt m 0).getD []) with
    | some n => some (.num n)
    | none => none
  else
    -- default: match[1] || match[0]
    some (.str (orTruthyChars (groupAt m 0) m.m0))

/-- `_extractEntityWithPatterns` (lines 101-132): first pattern that
matches decides; no match is `null`. -/
def extractWithPatterns (message : List Char) (patterns : List BPattern)
    (kind : String) : Option EntityVal :=
  match patterns with
  | [] => none
  | p :: rest =>
    match jsMatchRE p message with
    | some m => entitySwitch kind p m
    | none => extractWithPatterns message rest kind

/-- The extracted entity map (`entities`); a `none` field is an absent
key. -/
structure EntityMap where
  user_id : Option EntityVal := none
  time_period : Option EntityVal := none
  time_range : Option EntityVal := none
  event_type : Option EntityVal := none
  count_limit : Option EntityVal := none
  deriving DecidableEq, Repr

/-- Truthiness of a map entry (`!entities.time_period` tests). -/
def truthyVal : Option EntityVal → Bool
  | none => false
  | some .undef => false
  | some (.str s) => s ≠ []
  | some (.num n) => n ≠ 0

/-- `_extractTimeEntity(message)` (lines 154-177): the first secondary
date pattern that matches yields `{type, value: match[0]}`. -/
def extractTimeEntity (message : List Char) :
    Option (Bool × List Char) :=
  datePatterns.findSome? fun pt =>
    (jsMatchRE pt.1 message).map fun m => (pt.2, m.m0)

/-- `extractEntities(message)` (lines 77-99): each entity kind is tried in
declaration order over its pattern list; a secondary pass may add one
time entity when neither `time_period` nor `time_range` was set. -/
def extractEntities (message : Option String) : EntityMap :=
  match message with
  | none => {}
  | some msg =>
    if msg = "" then {}
    else
      let mc := msg.data
      let base : EntityMap :=
        { user_id := extractWithPatterns mc userIdPatterns "user_id",
          time_period :=
            extractWithPatterns mc timePeriodPatterns "time_period",
          time_range :=
            extractWithPatterns mc timeRangePatterns "time_range",
          event_type :=
            extractWithPatterns mc eventTypePatterns "event_type",
          count_limit :=
            extractWithPatterns mc countLimitPatterns "count_limit" }
      if !truthyVal base.time_period && !truthyVal base.time_range then
        match extractTimeEntity mc with
        | some (true, v) => { base with time_period := some (.str v) }
        | some (false, v) => { base with time_range := some (.str v) }
        | none => base
      else base

end EntityExtractor

/-- The apostrophe as a one-character string (several UI strings of the
source contain it). -/
def aposS : String := ⟨[apos]⟩

/-! ## Request router and response formatter —
`src/core/snykChatbotWrapper.js`, `src/core/responseFormatter.js`,
`src/nlp/chatbotNlpIntegration.js` -/

namespace Router

/-- Opaque handle for the structured `data` payload a workflow attaches
to its response (its contents are irrelevant to the routing claims). -/
structure Payload where
  tag : String
  deriving DecidableEq, Repr

/-- The argument object each workflow passes to
`responseFormatter.formatApiResponse` (a `message`, an optional `data`
payload, and a `success` flag). -/
structure FormatInput where
  message : String
  data : Option Payload := none
  success : Bool
  deriving DecidableEq, Repr

/-- A response object as the channel adapter receives it.  `message`,
`success` and `timestamp` are set by every constructor in the source;
`data`, `fallback` and `clarification` are JS keys that some paths leave
absent, hence the `Option` (for `data`, `some none` is a present key
holding `null`). -/
structure JsResponse where
  message : String
  data : Option (Option Payload) := none
  success : Bool
  timestamp : Nat
  fallback : Option Bool := none
  clarification : Option Bool := none
  deriving DecidableEq, Repr

/-- `ResponseFormatter.formatApiResponse(responseData)`
(responseFormatter.js lines 513-520): `data` defaults to `null`
(`responseData.data || null`), `success` is `responseData.success !==
false`, and a fresh timestamp is attached (`now` models
`new Date().toISOString()`). -/
def formatApiResponse (now : Nat) (inp : FormatInput) : JsResponse :=
  { message := inp.message, data := some inp.data,
    success := inp.success, timestamp := now }

/-- The settled outcomes of the five asynchronous workflow handlers
(`_handleEventByUserQuery`, …): an error is an exception thrown inside
the handler; a success carries the `formatApiResponse` argument of the
return path taken (every return statement of every handler is a
`formatApiResponse` call, so this is the handler's whole observable
behaviour). -/
structure Workflows where
  eventByUser : Except JsError FormatInput
  securityEvents : Except JsError FormatInput
  userActivity : Except JsError FormatInput
  suspiciousActivity : Except JsError FormatInput
  timeBased : Except JsError FormatInput

/-- The `switch (intent)` dispatch: which workflow a recognized intent
routes to (`help_request` and unknown intents are handled inline). -/
def workflowOf (w : Workflows) : String → Option (Except JsError FormatInput)
  | "event_by_user_query" => some w.eventByUser
  | "security_events_query" => some w.securityEvents
  | "user_activity_query" => some w.userActivity
  | "suspicious_activity_query" => some w.suspiciousActivity
  | "time_based_query" => some w.timeBased
  | _ => none

/-- The not-initialized message (snykChatbotWrapper.js line 49). -/
def connTroubleMessage : String :=
  "I" ++ aposS ++
    "m having trouble connecting to Snyk. Please check the API configuration."

/-- The unknown-intent default message (line 76). -/
def notSureMessage : String :=
  "I" ++ aposS ++
    "m not sure how to help with that. Try asking about security events, user activity, or suspicious behavior."

/-- The `_handleHelpRequest` text (lines 293-302). -/
def helpMessage : String :=
  "I can help you monitor Snyk audit logs for security events and user activities. Try asking me:\n\n• \"Show me recent security events\"\n• \"Any suspicious activity in the last 24 hours?\"\n• \"What has [username] been doing?\"\n• \"Were there any policy changes recently?\"\n• \"Show me after-hours activity\"\n• \"Who modified our integrations this week?\"\n\nI can search by time period, user, event type, or security priority. What would you like to know?"

/-- The body of `handleRequest` before its `catch` (lines 46-79): the
not-initialized early return, then the intent dispatch.  A workflow
exception propagates out of the `try`. -/
def handleRequestE (initialized : Bool) (w : Workflows) (now : Nat)
    (intent : String) : Except JsError JsResponse :=
  if !initialized then
    .ok (formatApiResponse now { message := connTroubleMessage,
                                 success := false })
  else
    match workflowOf w intent with
    | some r => r.map (formatApiResponse now)
    | none =>
      if intent = "help_request" then
        .ok (formatApiResponse now { message := helpMessage,
                                     success := true })
      else
        .ok (formatApiResponse now { message := notSureMessage,
                                     success := true })

/-- `handleRequest` (lines 46-87): the `catch` converts any workflow
exception into a `success:false` response carrying the error message. -/
def handleRequest (initialized : Bool) (w : Workflows) (now : Nat)
    (intent : String) : JsResponse :=
  match handleRequestE initialized w now intent with
  | .ok r => r
  | .error e =>
    formatApiResponse now
      { message := "I encountered an error: " ++ e.message,
        success := false }

/-- `_createErrorResponse(message)` (chatbotNlpIntegration.js lines
157-163): note there is no `data` key. -/
def createErrorResponse (now : Nat) (msg : String) : JsResponse :=
  { message := msg, success := false, timestamp := now }

/-- The four canned fallback replies (lines 25-30). -/
def fallbackResponses : List String :=
  [ "I" ++ aposS ++
      "m not sure I understand. Could you rephrase your question about Snyk audit logs?",
    "I" ++ aposS ++
      "m having trouble understanding that. Try asking about security events, user activity, or suspicious behavior.",
    "I didn" ++ aposS ++
      "t quite catch that. You can ask me things like " ++ aposS ++
      "Show me recent security events" ++ aposS ++ " or " ++ aposS ++
      "Any suspicious activity lately?" ++ aposS,
    "I" ++ aposS ++
      "m not sure how to help with that. You can ask about security events, user activity, or type " ++
      aposS ++ "help" ++ aposS ++ " for more options." ]

/-- `_createFallbackResponse()` (lines 170-181): a pseudo-randomly chosen
canned reply (`randIdx` models the `Math.random()` draw); again no `data`
key. -/
def createFallbackResponse (now : Nat) (randIdx : Nat) : JsResponse :=
  { message := (fallbackResponses.get? (randIdx % 4)).getD "",
    success := true, fallback := some true, timestamp := now }

/-- The question-indicator keywords of `_handleLowConfidence`
(line 121). -/
def questionIndicators : List String :=
  ["what", "how", "when", "who", "why", "where", "which", "show", "tell",
   "find"]

/-- `_handleLowConfidence` (lines 119-149): when the message looks like a
question and confidence is at least 0.2, route the best-guess intent and
prefix a clarification note (the inner `try` never fires because
`handleRequest` resolves on every input); otherwise a canned fallback. -/
def handleLowConfidence (wrapperInit : Bool) (w : Workflows) (now : Nat)
    (randIdx : Nat) (msg : String)
    (intentResult : IntentRecognizer.IntentResult) : JsResponse :=
  let hasQI := questionIndicators.any fun kw =>
    AnomalyDetector.jsIncludes ⟨lowStr msg.data⟩ kw
  if hasQI ∧ 2/10 ≤ intentResult.confidence then
    let response := handleRequest wrapperInit w now intentResult.intent
    { response with
        message := "I" ++ aposS ++ "m not entirely sure, but here" ++
          aposS ++ "s what I found:\n\n" ++ response.message,
        clarification := some true }
  else createFallbackResponse now randIdx

/-- `processMessage(message, context)` (lines 62-109).  `initialized` is
the integration's flag, `initOutcome` the settled result of the lazy
`init` retry (an exception, or the boolean it returns), `wrapperInit` the
wrapper's own flag, `threshold` the configured confidence threshold, and
`randIdx` the `Math.random()` draw of a possible fallback.  The final
`catch` of the source never fires: intent recognition, entity extraction
and `handleRequest` all resolve. -/
def processMessage (initialized : Bool) (initOutcome : Except JsError Bool)
    (wrapperInit : Bool) (w : Workflows) (threshold : ℚ) (now : Nat)
    (randIdx : Nat) (msg : String) : JsResponse :=
  let core : JsResponse :=
    let intentResult := IntentRecognizer.recognizeIntent (some msg)
    let _entities := EntityExtractor.extractEntities (some msg)
    if intentResult.confidence < threshold then
      handleLowConfidence wrapperInit w now randIdx msg intentResult
    else
      handleRequest wrapperInit w now intentResult.intent
  if !initialized then
    match initOutcome with
    | .error e =>
      createErrorResponse now ("Initialization error: " ++ e.message)
    | .ok false => createErrorResponse now connTroubleMessage
    | .ok true => core
  else core

end Router

/-! ## Roster fetch chain — `SnykApiClient.getAllOrgUsers`
(src/api/client.js lines 450-519) and `SnykAuditService.getAllOrgUsers`
(src/api/service.js lines 432-481) -/

namespace ApiClient

/-- One member object of the V1 members endpoint, as the client maps it
(`{id, name, username, email, role}`). -/
structure RawMember where
  id : String
  name : Option String := none
  username : Option String := none
  email : Option String := none
  role : Option String := none
  deriving DecidableEq, Repr

/-- The settled outcome of the `GET /api/v1/org/{orgId}/members`
request. -/
inductive HttpOutcome where
  | ok (data : List RawMember)
  | okOther
  | httpError (status : Nat)
  | networkError (msg : String)
  deriving DecidableEq, Repr

/-- The `errorType` classification computed in the `catch` of
`getAllOrgUsers` (lines 487-504): by status code for HTTP failures, a
network message otherwise, nothing on success. -/
def classifyOrgUsersError : HttpOutcome → Option String
  | .ok _ => none
  | .okOther => none
  | .httpError st =>
    some (if st = 401 then
            "Authentication error: API key may be invalid or expired"
          else if st = 403 then
            "Permission error: API key may not have sufficient permissions"
          else if st = 404 then
            "Not found error: Organization ID may be invalid"
          else "API error: Status " ++ toString st)
  | .networkError _ => some "Network or connection error"

/-- `SnykApiClient.getAllOrgUsers(orgId)` under the given HTTP outcome:
an array response is mapped to the member shape; any failure is caught —
the classification of `classifyOrgUsersError` is attached to the local
error object ("for propagation", line 506) but the function then
*returns the empty array* instead of throwing (line 517), so the error
and its classification never leave the client. -/
def getAllOrgUsers (o : HttpOutcome) : Except JsError (List RawMember) :=
  match o with
  | .ok ms => .ok ms
  | .okOther => .ok []
  | .httpError _ => .ok []
  | .networkError _ => .ok []

end ApiClient

namespace AuditService

/-- A processed organization user as `SnykAuditService.getAllOrgUsers`
caches it. -/
structure SvcUser where
  id : String
  name : Option String := none
  username : Option String := none
  email : Option String := none
  displayName : String := ""
  deriving DecidableEq, Repr

/-- A service-layer error (`errorType` is the property the analyzer's
`catch` would read off a thrown error object). -/
structure SvcError where
  message : String
  errorType : Option String := none
  deriving DecidableEq, Repr

/-- The per-user processing of `getAllOrgUsers` (lines 448-460):
`const userData = user.attributes || {}` — the client's members carry no
`attributes` key, so `userData` is `{}` and `name`/`username`/`email`
all come out `null`, with the fallback display name. -/
def processUser (u : ApiClient.RawMember) : SvcUser :=
  { id := u.id, name := none, username := none, email := none,
    displayName := "user " ++ ⟨u.id.data.take 8⟩ }

/-- `SnykAuditService.getAllOrgUsers(orgId)` (first, uncached call) as a
function of the client call's outcome: a success is processed and cached;
an exception is caught (lines 472-480) — the `errorType` is read and
logged, and the function returns the empty array instead of throwing. -/
def getAllOrgUsers (clientResult : Except JsError (List ApiClient.RawMember)) :
    Except SvcError (List SvcUser) :=
  match clientResult with
  | .ok us => .ok (us.map processUser)
  | .error _ => .ok []

/-- The roster outcome the analyzer sees for a given HTTP outcome of the
underlying members request. -/
def rosterOutcomeOfHttp (o : ApiClient.HttpOutcome) :
    Except SvcError (List SvcUser) :=
  getAllOrgUsers (ApiClient.getAllOrgUsers o)

end AuditService

/-! ## User activity analyzer — `src/core/userActivityAnalyzer.js` -/

namespace UserActivityAnalyzer

/-- The analyzer's collaborator surface: the configured organization id
(`this.orgId`), the settled outcome of `auditService.getAllOrgUsers`,
and the `name` field `auditService.getUserInfo(id)` resolves for an id
(that call never rejects, see service.js lines 297-370). -/
structure AnalyzerEnv where
  orgId : Option String
  rosterOutcome : Except AuditService.SvcError (List AuditService.SvcUser)
  userInfoName : String → Option String

/-- One entry of the roster-view `userSummaries`. -/
structure UserSummaryEntry where
  userId : String
  eventCount : Nat
  lastActive : Option Nat := none
  eventTypes : List (String × Nat) := []
  deriving DecidableEq, Repr

/-- One entry of `recentActions`. -/
structure RecentAction where
  event : String
  time : Nat
  content : Option EventContent := none
  deriving DecidableEq, Repr

/-- The analysis result object.  Each field is a JS key some return paths
leave absent (`none`); `some` wraps the present value (`userName`,
`userEmail` and `apiErrorType` can be present-but-`null`). -/
structure AnalysisResult where
  userId : Option String := none
  userName : Option (Option String) := none
  userEmail : Option (Option String) := none
  totalActions : Option Nat := none
  mostFrequentActivities : Option (List (String × Nat)) := none
  recentActions : Option (List RecentAction) := none
  allEvents : Option (List AuditEvent) := none
  knownUser : Option Bool := none
  allOrgUsers : Option (List AuditService.SvcUser) := none
  orgUsersAvailable : Option Bool := none
  apiErrorType : Option (Option String) := none
  userSummaries : Option (List UserSummaryEntry) := none
  deriving DecidableEq, Repr

/-- The actor an event is grouped under (line 38):
`event.user_id || event.content?.user_id || event.content?.performed_by
|| 'unknown'`. -/
def eventUser (e : AuditEvent) : String :=
  jsOrS e.user_id
    (jsOrS (e.content.bind EventContent.user_id)
      (jsOrS (e.content.bind EventContent.performed_by) "unknown"))

/-- `Object.keys(userEventMap)`, in insertion (= first occurrence)
order. -/
def userKeys (events : List AuditEvent) : List String :=
  uniqKeys (events.map eventUser)

/-- `userEventMap[u]`, in original event order. -/
def eventsOf (events : List AuditEvent) (u : String) : List AuditEvent :=
  events.filter (fun e => eventUser e = u)

/-- Stable insertion for the descending count sort of
`summarizeEventTypes` (ties keep first-occurrence order, as the stable
JS sort does). -/
def insertCountDesc (x : String × Nat) :
    List (String × Nat) → List (String × Nat)
  | [] => [x]
  | y :: ys => if y.2 ≤ x.2 then x :: y :: ys else y :: insertCountDesc x ys

/-- `summarizeEventTypes(events)` (lines 387-398): count per event type
(`Object.entries` in first-occurrence order) sorted by count
descending. -/
def summarizeEventTypes (events : List AuditEvent) : List (String × Nat) :=
  ((uniqKeys (events.map AuditEvent.event)).map fun t =>
      (t, (events.filter (fun e => e.event = t)).length)).foldr
    insertCountDesc []

/-- Stable insertion for the descending timestamp sort of
`analyzeSpecificUserActivity`. -/
def insertCreatedDesc (e : AuditEvent) :
    List AuditEvent → List AuditEvent
  | [] => [e]
  | y :: ys =>
    if y.created ≤ e.created then e :: y :: ys
    else y :: insertCreatedDesc e ys

/-- `analyzeSpecificUserActivity(userEvents)` (lines 198-222); the
`apiErrorType` key carries `this.lastApiErrorType` at call time. -/
def analyzeSpecificUserActivity (userEvents : List AuditEvent)
    (lastApiErrorType : Option String) : AnalysisResult :=
  let sorted := userEvents.foldr insertCreatedDesc []
  let eventTypes := summarizeEventTypes userEvents
  { totalActions := some userEvents.length,
    mostFrequentActivities := some (eventTypes.take 5),
    recentActions := some ((sorted.take 5).map fun e =>
      { event := e.event, time := e.created, content := e.content }),
    allEvents := some sorted,
    knownUser := some true,
    apiErrorType := some lastApiErrorType }

/-- The final roster-view return (lines 180-190).  `orgUsersAvailable`
here reads the *outer* `orgUsersAvailable` of line 32, which stays
`false`: line 60 declares a new, shadowing variable inside the lookup
block.  `lastActive` is `userEventMap[user][0]?.created || null` (a zero
timestamp is falsy). -/
def rosterView (events : List AuditEvent) (lastApiErrorType : Option String) :
    AnalysisResult :=
  { userSummaries := some ((userKeys events).map fun u =>
      let ues := eventsOf events u
      { userId := u, eventCount := ues.length,
        lastActive :=
          match ues.head? with
          | some e => if e.created ≠ 0 then some e.created else none
          | none => none,
        eventTypes := summarizeEventTypes ues }),
    allEvents := some events,
    orgUsersAvailable := some false,
    apiErrorType := some lastApiErrorType }

/-- The roster lookup state assembled by lines 58-114: the users list,
the captured `lastApiErrorType`, and the (shadowing, inner)
`orgUsersAvailable` flag.  With a truthy org id the service call's
outcome decides all three (its exception's `errorType` is captured when
truthy, line 71); without one, the local `throw` lands in the outer
`catch`, whose classification of that message stays at the initial
`'Unknown API error'`. -/
def rosterState (sv : AnalyzerEnv) :
    List AuditService.SvcUser × Option String × Bool :=
  if jsTruthyS sv.orgId then
    match sv.rosterOutcome with
    | .ok us => (us, none, us ≠ [])
    | .error e =>
      ([], if jsTruthyS e.errorType then e.errorType else none, false)
  else ([], some "Unknown API error", false)

/-- The name-match predicate of line 118:
`user.name && user.name.toLowerCase() === userId.toLowerCase()`. -/
def nameMatches (uid : String) (u : AuditService.SvcUser) : Bool :=
  jsTruthyS u.name &&
    lowStr (u.name.getD "").data = lowStr uid.data

/-- `analyzeUserActivity(events, userId)` (lines 29-191), with the
collaborator outcomes supplied by `env` (`none` models a missing
`auditService`). -/
def analyzeUserActivity (env : Option AnalyzerEnv)
    (events : List AuditEvent) (userId : Option String) : AnalysisResult :=
  if jsTruthyS userId then
    let uid := userId.getD ""
    if uid ∈ userKeys events then
      analyzeSpecificUserActivity (eventsOf events uid) none
    else
      match env with
      | some sv =>
        let st := rosterState sv
        let orgUsers := st.1
        let lastErr := st.2.1
        let avail := st.2.2
        if orgUsers ≠ [] then
          match orgUsers.find? (nameMatches uid) with
          | some m =>
            if m.id ∈ userKeys events then
              analyzeSpecificUserActivity (eventsOf events m.id) lastErr
            else
              { userId := some m.id, userName := some m.name,
                userEmail := some m.email, totalActions := some 0,
                mostFrequentActivities := some [],
                recentActions := some [], knownUser := some true,
                allOrgUsers := some orgUsers,
                orgUsersAvailable := some avail,
                apiErrorType := some lastErr }
          | none =>
            { userId := some uid, totalActions := some 0,
              mostFrequentActivities := some [], recentActions := some [],
              knownUser := some false, allOrgUsers := some orgUsers,
              orgUsersAvailable := some avail,
              apiErrorType := some lastErr }
        else
          match ((userKeys events).filter (· ≠ "unknown")).find?
              (fun idd =>
                match sv.userInfoName idd with
                | some n =>
                  n ≠ "" && lowStr n.data = lowStr uid.data
                | none => false) with
          | some idd =>
            analyzeSpecificUserActivity (eventsOf events idd) lastErr
          | none => rosterView events lastErr
      | none => rosterView events none
  else rosterView events none

/-- The suggestion list rendered by `generateUserActivitySummary` for an
unknown user (lines 241-244): the roster users having a truthy `name`,
capped at 10. -/
def suggestionUsers (res : AnalysisResult) : List AuditService.SvcUser :=
  match res.allOrgUsers with
  | some us => (us.filter (fun u => jsTruthyS u.name)).take 10
  | none => []

end UserActivityAnalyzer

/-! ## Theorems -/

/-! ### Generic list helpers -/

theorem mem_uniqAux {x : String} :
    ∀ (l seen : List String), x ∈ uniqAux l seen ↔ x ∈ l ∧ x ∉ seen := by
  intro l
  induction l with
  | nil => intro seen; simp [uniqAux]
  | cons k rest ih =>
    intro seen
    by_cases hxk : x = k
    · subst hxk
      by_cases hk : x ∈ seen
      · rw [uniqAux, if_pos hk, ih]; simp [hk]
      · rw [uniqAux, if_neg hk]; simp [hk]
    · by_cases hk : k ∈ seen
      · rw [uniqAux, if_pos hk, ih]
        simp only [List.mem_cons]
        constructor
        · rintro ⟨hx, hns⟩; exact ⟨Or.inr hx, hns⟩
        · rintro ⟨hx | hx, hns⟩
          · exact absurd hx hxk
          · exact ⟨hx, hns⟩
      · rw [uniqAux, if_neg hk]
        simp only [List.mem_cons, ih]
        constructor
        · rintro (hx | ⟨hx, hns⟩)
          · exact absurd hx hxk
          · exact ⟨Or.inr hx, fun hc => hns (Or.inr hc)⟩
        · rintro ⟨hx | hx, hns⟩
          · exact absurd hx hxk
          · exact Or.inr ⟨hx, fun hc => hc.elim hxk hns⟩

theorem mem_uniqKeys {x : String} {l : List String} :
    x ∈ uniqKeys l ↔ x ∈ l := by
  simp [uniqKeys, mem_uniqAux]

theorem nodup_uniqAux :
    ∀ (l seen : List String), (uniqAux l seen).Nodup := by
  intro l
  induction l with
  | nil => intro seen; simp [uniqAux]
  | cons k rest ih =>
    intro seen
    by_cases hk : k ∈ seen
    · simpa [uniqAux, if_pos hk] using ih seen
    · simp only [uniqAux, if_neg hk, List.nodup_cons]
      refine ⟨fun hc => ?_, ih (k :: seen)⟩
      exact ((mem_uniqAux rest (k :: seen)).mp hc).2 (List.mem_cons_self k seen)

theorem nodup_uniqKeys (l : List String) : (uniqKeys l).Nodup :=
  nodup_uniqAux l []

theorem filter_flatMap {α β : Type} (p : β → Bool) (f : α → List β) :
    ∀ l : List α, (l.flatMap f).filter p = l.flatMap fun x => (f x).filter p := by
  intro l
  induction l with
  | nil => simp
  | cons x rest ih => simp [List.flatMap_cons, List.filter_append, ih]

theorem filter_filterMap {α β : Type} (p : β → Bool) (g : α → Option β) :
    ∀ l : List α,
      (l.filterMap g).filter p =
        l.filterMap fun x =>
          (g x).bind fun b => if p b then some b else none := by
  intro l
  induction l with
  | nil => simp
  | cons x rest ih =>
    cases hg : g x with
    | none => simp [List.filterMap_cons, hg, ih]
    | some b =>
      by_cases hp : p b
      · simp [List.filterMap_cons, hg, hp, List.filter_cons, ih]
      · simp [List.filterMap_cons, hg, hp, List.filter_cons, ih]

theorem flatMap_single {α β : Type} [DecidableEq α] {F : α → List β} {x : α} :
    ∀ l : List α, l.Nodup → (∀ y ∈ l, y ≠ x → F y = []) →
      l.flatMap F = if x ∈ l then F x else [] := by
  intro l
  induction l with
  | nil => simp
  | cons y rest ih =>
    intro hnd hother
    have hndr := (List.nodup_cons.mp hnd).2
    have hni := (List.nodup_cons.mp hnd).1
    by_cases hyx : y = x
    · subst hyx
      have hrest : rest.flatMap F = [] := by
        apply List.flatMap_eq_nil_iff.mpr
        intro z hz
        exact hother z (List.mem_cons_of_mem _ hz) (fun he => hni (he ▸ hz))
      simp [List.flatMap_cons, hrest]
    · have h1 : F y = [] := hother y (List.mem_cons_self y rest) hyx
      have h2 := ih hndr (fun z hz hzx => hother z (List.mem_cons_of_mem _ hz) hzx)
      simp only [List.flatMap_cons, h1, List.nil_append, h2, List.mem_cons]
      by_cases hx : x ∈ rest
      · simp [hx, Ne.symm hyx]
      · simp [hx, Ne.symm hyx]

theorem filterMap_single {α β : Type} [DecidableEq α] {h : α → Option β} {x : α} :
    ∀ l : List α, l.Nodup → (∀ y ∈ l, y ≠ x → h y = none) →
      l.filterMap h = if x ∈ l then (h x).toList else [] := by
  intro l
  induction l with
  | nil => simp
  | cons y rest ih =>
    intro hnd hother
    have hndr := (List.nodup_cons.mp hnd).2
    have hni := (List.nodup_cons.mp hnd).1
    by_cases hyx : y = x
    · subst hyx
      have hrest : rest.filterMap h = [] := by
        apply List.filterMap_eq_nil_iff.mpr
        intro z hz
        exact hother z (List.mem_cons_of_mem _ hz) (fun he => hni (he ▸ hz))
      cases hx : h y with
      | none => simp [List.filterMap_cons, hx, hrest]
      | some b => simp [List.filterMap_cons, hx, hrest]
    · have h1 : h y = none := hother y (List.mem_cons_self y rest) hyx
      have h2 := ih hndr (fun z hz hzx => hother z (List.mem_cons_of_mem _ hz) hzx)
      simp only [List.filterMap_cons, h1, h2, List.mem_cons]
      by_cases hx : x ∈ rest
      · simp [hx, Ne.symm hyx]
      · simp [hx, Ne.symm hyx]

/-! ### Pagination claims -/

/-- Call-count of the pagination loop against an always-next search: from
page `p` (with enough fuel) the loop makes `101 - p` further calls. -/
theorem fetchLoop_calls_alwaysNext (search : ApiClient.SearchFun)
    (h : ApiClient.AlwaysNext search) :
    ∀ (fuel page calls : Nat) (acc : List ApiClient.RawItem)
      (cursor : Option String), 1 ≤ page → page ≤ 100 → 101 - page ≤ fuel →
      (ApiClient.fetchLoop search fuel acc cursor page calls).2 =
        calls + (101 - page) := by
  intro fuel
  induction fuel with
  | zero => intro page calls acc cursor h1 h2 h3; omega
  | succ f ih =>
    intro page calls acc cursor h1 h2 h3
    obtain ⟨resp, s, hs, hnext, hne⟩ := h calls cursor
    have htr : jsTruthyS (some s) = true := by simp [jsTruthyS, hne]
    by_cases hp : page + 1 > 100
    · simp only [ApiClient.fetchLoop, hs, hnext, htr, if_pos hp, if_true]
      omega
    · simp only [ApiClient.fetchLoop, hs, hnext, htr, if_neg hp, if_true]
      rw [ih (page + 1) (calls + 1) _ _ (by omega) (by omega) (by omega)]
      omega

/-- C3: a search operation whose every page carries a next-link with a
non-empty `starting_after` cursor makes `fetchAllPages` terminate after
exactly 100 search calls, the call resolving with the accumulated
items. -/
theorem c3_pagination_safety_cap (search : ApiClient.SearchFun)
    (h : ApiClient.AlwaysNext search) :
    ApiClient.fetchAllPagesCalls search = 100 ∧
      ApiClient.fetchAllPages search =
        .ok (ApiClient.fetchAllPagesRun search).1 := by
  constructor
  · have := fetchLoop_calls_alwaysNext search h 101 1 0 [] none
      (by omega) (by omega) (by omega)
    simpa [ApiClient.fetchAllPagesCalls, ApiClient.fetchAllPagesRun] using this
  · rfl

/-- Witness for C3 at a concrete always-next search function. -/
theorem c3_pagination_safety_cap_witness :
    ApiClient.fetchAllPagesCalls
      (fun _ _ => .ok { data := some (.arr []),
                        next := some (.cursor (some "x")) }) = 100 := by
  have h : ApiClient.AlwaysNext
      (fun _ _ => .ok { data := some (.arr []),
                        next := some (.cursor (some "x")) }) := by
    intro k c
    exact ⟨_, "x", rfl, rfl, by decide⟩
  exact (c3_pagination_safety_cap _ h).1

/-- C4: against a mock search returning three cursor-chained pages and a
fourth page with no next link, `fetchAllPages` makes exactly 4 calls and
resolves with the in-order concatenation of the normalized items of all
four pages. -/
theorem c4_pagination_concat (p1 p2 p3 p4 : List ApiClient.RawItem)
    (c1 c2 c3 : String) (h1 : c1 ≠ "") (h2 : c2 ≠ "") (h3 : c3 ≠ "") :
    ApiClient.fetchAllPages (ApiClient.mkSearch4 p1 p2 p3 p4 c1 c2 c3) =
        .ok ((p1 ++ p2 ++ p3 ++ p4).map ApiClient.normalizeItem) ∧
      ApiClient.fetchAllPagesCalls
        (ApiClient.mkSearch4 p1 p2 p3 p4 c1 c2 c3) = 4 := by
  have e1 : jsTruthyS (some c1) = true := by simp [jsTruthyS, h1]
  have e2 : jsTruthyS (some c2) = true := by simp [jsTruthyS, h2]
  have e3 : jsTruthyS (some c3) = true := by simp [jsTruthyS, h3]
  have hrun : ApiClient.fetchAllPagesRun
      (ApiClient.mkSearch4 p1 p2 p3 p4 c1 c2 c3) =
      ((p1 ++ p2 ++ p3 ++ p4).map ApiClient.normalizeItem, 4) := by
    simp [ApiClient.fetchAllPagesRun, ApiClient.fetchLoop,
      ApiClient.mkSearch4, ApiClient.pageItems, e1, e2, e3]
  constructor
  · simp [ApiClient.fetchAllPages, hrun]
  · simp [ApiClient.fetchAllPagesCalls, hrun]

/-- Witness for C4: concrete pages, one item attributes-wrapped and one
flat, both normalizing to the same `AuditEvent` field set. -/
theorem c4_pagination_concat_witness :
    ApiClient.fetchAllPages
      (ApiClient.mkSearch4
        [{ attributes := some { created := 5, event := "org.policy.edit" },
           top := { created := 0, event := "ignored" } }]
        [{ top := { created := 5, event := "org.policy.edit" } }]
        []
        [{ top := { created := 9, event := "org.webhook.add" } }]
        "a" "b" "c") =
      .ok [{ created := 5, event := "org.policy.edit" },
           { created := 5, event := "org.policy.edit" },
           { created := 9, event := "org.webhook.add" }] := by
  have h := c4_pagination_concat
    [{ attributes := some { created := 5, event := "org.policy.edit" },
       top := { created := 0, event := "ignored" } }]
    [{ top := { created := 5, event := "org.policy.edit" } }]
    []
    [{ top := { created := 9, event := "org.webhook.add" } }]
    "a" "b" "c" (by decide) (by decide) (by decide)
  simpa [ApiClient.normalizeItem] using h.1

/-- C2 counterexample: a non-retriable failure on the second page does
*not* fail the whole call — `fetchAllPages` resolves (no error
propagates) and the items accumulated from the first page *are*
returned. -/
theorem c2_counterexample :
    (ApiClient.fetchAllPages
        (ApiClient.mkSearchFail
          [{ top := { created := 1, event := "org.policy.edit" } }]
          "cur" { message := "Request failed with status code 400" })).isOk
        = true ∧
      ApiClient.fetchAllPages
        (ApiClient.mkSearchFail
          [{ top := { created := 1, event := "org.policy.edit" } }]
          "cur" { message := "Request failed with status code 400" }) =
        .ok [{ created := 1, event := "org.policy.edit" }] ∧
      ApiClient.fetchAllPagesCalls
        (ApiClient.mkSearchFail
          [{ top := { created := 1, event := "org.policy.edit" } }]
          "cur" { message := "Request failed with status code 400" }) = 2 := by
  refine ⟨by decide, by decide, by decide⟩

/-- C2 amended: when a page request fails with a non-retriable error
after an earlier page succeeded, the in-loop `catch` stops the pagination
silently: the call resolves with the items accumulated from the earlier
pages (the error does not propagate to the caller). -/
theorem c2_amended_partial_results (p1 : List ApiClient.RawItem)
    (c : String) (e : JsError) (hc : c ≠ "") :
    ApiClient.fetchAllPages (ApiClient.mkSearchFail p1 c e) =
        .ok (p1.map ApiClient.normalizeItem) ∧
      ApiClient.fetchAllPagesCalls (ApiClient.mkSearchFail p1 c e) = 2 := by
  have ec : jsTruthyS (some c) = true := by simp [jsTruthyS, hc]
  have hrun : ApiClient.fetchAllPagesRun (ApiClient.mkSearchFail p1 c e) =
      (p1.map ApiClient.normalizeItem, 2) := by
    simp [ApiClient.fetchAllPagesRun, ApiClient.fetchLoop,
      ApiClient.mkSearchFail, ApiClient.pageItems, ec]
  exact ⟨by simp [ApiClient.fetchAllPages, hrun],
         by simp [ApiClient.fetchAllPagesCalls, hrun]⟩

/-- Witness for the amended C2. -/
theorem c2_amended_partial_results_witness :
    ApiClient.fetchAllPages
        (ApiClient.mkSearchFail
          [{ top := { created := 3, event := "org.webhook.delete" } }]
          "next-cursor" { message := "boom" }) =
      .ok [{ created := 3, event := "org.webhook.delete" }] := by
  have h := c2_amended_partial_results
    [{ top := { created := 3, event := "org.webhook.delete" } }]
    "next-cursor" { message := "boom" } (by decide)
  simpa [ApiClient.normalizeItem] using h.1

/-! ### Anomaly-detector claims -/

section AnomalyProofs

open AnomalyDetector

theorem volumeRecord_fields {events : List AuditEvent} {u t : String}
    {a : Anomaly} (h : volumeRecord events u t = some a) :
    a.type = "high_volume_sensitive_actions" ∧ a.user = u ∧
      a.eventType = t ∧ a.severity = "medium" ∧
      5 < countUserEventType events u t ∧ t ∈ securityCriticalEvents := by
  simp only [volumeRecord] at h
  split at h
  · rename_i hc
    cases h
    exact ⟨rfl, rfl, rfl, rfl, hc.1, hc.2⟩
  · cases h

theorem afterHoursRecord_fields {d : Detector} {e : AuditEvent}
    {a : Anomaly} (h : afterHoursRecord d e = some a) :
    a.type = "after_hours_activity" ∧ a.user = eventUser e ∧
      a.eventType = e.event ∧ a.time = some e.created ∧
      a.severity = "medium" ∧
      (utcHours e.created < d.businessHoursStart ∨
        d.businessHoursEnd < utcHours e.created) ∧
      e.event ∈ securityCriticalEvents := by
  simp only [afterHoursRecord] at h
  split at h
  · rename_i hc
    cases h
    exact ⟨rfl, rfl, rfl, rfl, rfl, hc.1, hc.2⟩
  · cases h

theorem serviceAccountRecord_type {e : AuditEvent} {a : Anomaly}
    (h : serviceAccountRecord e = some a) :
    a.type = "service_account_unusual_activity" ∧ a.severity = "high" := by
  simp only [serviceAccountRecord] at h
  split at h
  · cases h; exact ⟨rfl, rfl⟩
  · cases h

theorem countUserEventType_pos_mem (events : List AuditEvent) (u t : String)
    (h : 0 < countUserEventType events u t) :
    ∃ e ∈ events, eventUser e = u ∧ e.event = t := by
  rw [countUserEventType] at h
  obtain ⟨e, he⟩ := List.exists_mem_of_ne_nil _ (List.length_pos.mp h)
  have hm := List.mem_filter.mp he
  exact ⟨e, hm.1, of_decide_eq_true hm.2⟩

/-- C5: for every event list and every (actor, security-critical
event-type) pair, `detectAnomalies` emits exactly one
`high_volume_sensitive_actions` record for the pair when the actor has
strictly more than 5 events of that type, and none otherwise; every such
record has medium severity. -/
theorem c5_volume_rule (d : Detector) (events : List AuditEvent)
    (u t : String) (hcrit : t ∈ securityCriticalEvents) :
    ((detectAnomalies d events).filter (fun a =>
        decide (a.type = "high_volume_sensitive_actions" ∧ a.user = u ∧
          a.eventType = t))).length =
      (if 5 < countUserEventType events u t then 1 else 0) ∧
    (∀ a ∈ detectAnomalies d events,
        a.type = "high_volume_sensitive_actions" → a.severity = "medium") := by
  set p : Anomaly → Bool := fun a =>
    decide (a.type = "high_volume_sensitive_actions" ∧ a.user = u ∧
      a.eventType = t) with hp
  constructor
  · have hafter : (afterHoursAnomalies d events).filter p = [] := by
      rw [List.filter_eq_nil_iff]
      intro a ha
      obtain ⟨e, _, hfe⟩ := List.mem_filterMap.mp ha
      have hty := (afterHoursRecord_fields hfe).1
      intro hpa
      rw [hp, decide_eq_true_eq] at hpa
      exact absurd (hty.symm.trans hpa.1) (by decide)
    have hservice : (serviceAccountAnomalies events).filter p = [] := by
      rw [List.filter_eq_nil_iff]
      intro a ha
      obtain ⟨e, _, hfe⟩ := List.mem_filterMap.mp ha
      have hty := (serviceAccountRecord_type hfe).1
      intro hpa
      rw [hp, decide_eq_true_eq] at hpa
      exact absurd (hty.symm.trans hpa.1) (by decide)
    have hmain : ((volumeAnomalies events).filter p).length =
        if 5 < countUserEventType events u t then 1 else 0 := by
      have hother : ∀ y ∈ userKeys events, y ≠ u →
          ((typeKeysOf events y).filterMap (volumeRecord events y)).filter p
            = [] := by
        intro u' _ hne
        rw [List.filter_eq_nil_iff]
        intro a ha
        obtain ⟨t', _, hfe⟩ := List.mem_filterMap.mp ha
        have hfl := volumeRecord_fields hfe
        intro hpa
        rw [hp, decide_eq_true_eq] at hpa
        exact hne (hfl.2.1.symm.trans hpa.2.1)
      rw [volumeAnomalies, filter_flatMap,
        flatMap_single (x := u) (userKeys events)
          (by exact nodup_uniqKeys _) hother]
      by_cases hu : u ∈ userKeys events
      · rw [if_pos hu, filter_filterMap]
        have hother2 : ∀ y ∈ typeKeysOf events u, y ≠ t →
            ((volumeRecord events u y).bind fun b =>
              if p b then some b else none) = none := by
          intro t' _ hne
          cases hvr : volumeRecord events u t' with
          | none => simp
          | some b =>
            have hfl := volumeRecord_fields hvr
            have hpb : ¬ p b = true := by
              intro hpb
              rw [hp, decide_eq_true_eq] at hpb
              exact hne (hfl.2.2.1.symm.trans hpb.2.2)
            simp [hvr, hpb]
        rw [filterMap_single (x := t) (typeKeysOf events u)
          (by exact nodup_uniqKeys _) hother2]
        by_cases hcount : 5 < countUserEventType events u t
        · have htk : t ∈ typeKeysOf events u := by
            obtain ⟨e, hee, heu, het⟩ :=
              countUserEventType_pos_mem events u t (by omega)
            rw [typeKeysOf, mem_uniqKeys]
            refine List.mem_map.mpr ⟨e, ?_, het⟩
            exact List.mem_filter.mpr ⟨hee, by simp [heu]⟩
          rw [if_pos htk, if_pos hcount]
          cases hvr : volumeRecord events u t with
          | none =>
            exfalso
            simp [volumeRecord, hcount, hcrit] at hvr
          | some b =>
            have hfl := volumeRecord_fields hvr
            have hpb : p b = true := by
              rw [hp, decide_eq_true_eq]
              exact ⟨hfl.1, hfl.2.1, hfl.2.2.1⟩
            simp [hpb]
        · have hvr : volumeRecord events u t = none := by
            simp [volumeRecord, hcount]
          simp [hvr, hcount]
      · rw [if_neg hu]
        have hz : ¬ 5 < countUserEventType events u t := by
          intro hc
          apply hu
          obtain ⟨e, hee, heu, _⟩ :=
            countUserEventType_pos_mem events u t (by omega)
          rw [userKeys, mem_uniqKeys]
          exact List.mem_map.mpr ⟨e, hee, heu⟩
        simp [hz]
    rw [detectAnomalies, List.filter_append, List.filter_append,
      hafter, hservice]
    simpa using hmain
  · intro a ha hty
    rw [detectAnomalies] at ha
    rcases List.mem_append.mp ha with h12 | h3
    · rcases List.mem_append.mp h12 with h1 | h2
      · obtain ⟨u', _, hmem⟩ := List.mem_flatMap.mp h1
        obtain ⟨t', _, hfe⟩ := List.mem_filterMap.mp hmem
        exact (volumeRecord_fields hfe).2.2.2.1
      · obtain ⟨e, _, hfe⟩ := List.mem_filterMap.mp h2
        exact (afterHoursRecord_fields hfe).2.2.2.2.1
    · obtain ⟨e, _, hfe⟩ := List.mem_filterMap.mp h3
      exact absurd ((serviceAccountRecord_type hfe).1.symm.trans hty)
        (by decide)

/-- Witness for C5: 6 occurrences of `org.policy.edit` by one actor give
exactly one volume record; 5 give none. -/
theorem c5_volume_rule_witness :
    ((detectAnomalies {}
        (List.replicate 6
          { created := 0, event := "org.policy.edit",
            content := some { user_id := some "alice" } })).filter
        (fun a => decide (a.type = "high_volume_sensitive_actions" ∧
          a.user = "alice" ∧ a.eventType = "org.policy.edit"))).length = 1 ∧
    ((detectAnomalies {}
        (List.replicate 5
          { created := 0, event := "org.policy.edit",
            content := some { user_id := some "alice" } })).filter
        (fun a => decide (a.type = "high_volume_sensitive_actions" ∧
          a.user = "alice" ∧ a.eventType = "org.policy.edit"))).length = 0 := by
  constructor
  · have h := (c5_volume_rule {}
      (List.replicate 6
        { created := 0, event := "org.policy.edit",
          content := some { user_id := some "alice" } })
      "alice" "org.policy.edit" (by decide)).1
    rw [h]; decide
  · have h := (c5_volume_rule {}
      (List.replicate 5
        { created := 0, event := "org.policy.edit",
          content := some { user_id := some "alice" } })
      "alice" "org.policy.edit" (by decide)).1
    rw [h]; decide

/-- C6: for every event of a security-critical type, `detectAnomalies`
emits a medium-severity `after_hours_activity` record for it exactly when
the event's UTC hour lies outside the configured business-hours window
(`businessHoursStart`–`businessHoursEnd` inclusive). -/
theorem c6_after_hours_rule (d : Detector) (events : List AuditEvent)
    (e : AuditEvent) (he : e ∈ events)
    (hcrit : e.event ∈ securityCriticalEvents) :
    (∃ a ∈ detectAnomalies d events,
        a.type = "after_hours_activity" ∧ a.user = eventUser e ∧
        a.eventType = e.event ∧ a.time = some e.created ∧
        a.severity = "medium") ↔
      (utcHours e.created < d.businessHoursStart ∨
        d.businessHoursEnd < utcHours e.created) := by
  constructor
  · rintro ⟨a, ha, hty, -, -, htime, -⟩
    rw [detectAnomalies] at ha
    rcases List.mem_append.mp ha with h12 | h3
    · rcases List.mem_append.mp h12 with h1 | h2
      · obtain ⟨u', _, hmem⟩ := List.mem_flatMap.mp h1
        obtain ⟨t', _, hfe⟩ := List.mem_filterMap.mp hmem
        exact absurd ((volumeRecord_fields hfe).1.symm.trans hty) (by decide)
      · obtain ⟨e', _, hfe⟩ := List.mem_filterMap.mp h2
        have hfl := afterHoursRecord_fields hfe
        have hts : e'.created = e.created :=
          Option.some.inj (hfl.2.2.2.1.symm.trans htime)
        rw [← hts]
        exact hfl.2.2.2.2.2.1
    · obtain ⟨e', _, hfe⟩ := List.mem_filterMap.mp h3
      exact absurd ((serviceAccountRecord_type hfe).1.symm.trans hty)
        (by decide)
  · intro hout
    have hsome : ∃ a, afterHoursRecord d e = some a := by
      simp only [afterHoursRecord]
      rw [if_pos ⟨hout, hcrit⟩]
      exact ⟨_, rfl⟩
    obtain ⟨a, ha⟩ := hsome
    have hfl := afterHoursRecord_fields ha
    refine ⟨a, ?_, hfl.1, hfl.2.1, hfl.2.2.1, hfl.2.2.2.1, hfl.2.2.2.2.1⟩
    rw [detectAnomalies]
    refine List.mem_append.mpr (Or.inl (List.mem_append.mpr (Or.inr ?_)))
    exact List.mem_filterMap.mpr ⟨e, he, ha⟩

/-- Witness for C6: under the default 8–18 window, a security-critical
event at UTC hour 3 is flagged and one at UTC hour 10 is not. -/
theorem c6_after_hours_rule_witness :
    (∃ a ∈ detectAnomalies {}
        [(⟨10800000, "org.policy.edit", some ⟨some "alice", none⟩,
           none, none⟩ : AuditEvent)],
        a.type = "after_hours_activity" ∧
        a.user = eventUser (⟨10800000, "org.policy.edit",
          some ⟨some "alice", none⟩, none, none⟩ : AuditEvent) ∧
        a.eventType = "org.policy.edit" ∧
        a.time = some 10800000 ∧ a.severity = "medium") ∧
    ¬(∃ a ∈ detectAnomalies {}
        [(⟨36000000, "org.policy.edit", some ⟨some "alice", none⟩,
           none, none⟩ : AuditEvent)],
        a.type = "after_hours_activity" ∧
        a.user = eventUser (⟨36000000, "org.policy.edit",
          some ⟨some "alice", none⟩, none, none⟩ : AuditEvent) ∧
        a.eventType = "org.policy.edit" ∧
        a.time = some 36000000 ∧ a.severity = "medium") := by
  constructor
  · exact (c6_after_hours_rule {} _
      (⟨10800000, "org.policy.edit", some ⟨some "alice", none⟩,
        none, none⟩ : AuditEvent)
      (by decide) (by decide)).mpr (by decide)
  · intro hcon
    exact absurd ((c6_after_hours_rule {} _
      (⟨36000000, "org.policy.edit", some ⟨some "alice", none⟩,
        none, none⟩ : AuditEvent)
      (by decide) (by decide)).mp hcon) (by decide)

end AnomalyProofs

/-! ### Intent-recognizer claims -/

section IntentProofs

theorem firstMatchIn_mem {msg : List Char} {intent : String} {p : JsRegex} :
    ∀ {tbl : List (String × List JsRegex)},
      IntentRecognizer.firstMatchIn msg tbl = some (intent, p) →
      ∃ ps, (intent, ps) ∈ tbl ∧ p ∈ ps := by
  intro tbl
  induction tbl with
  | nil => intro h; cases h
  | cons ip rest ih =>
    obtain ⟨i0, ps0⟩ := ip
    intro h
    rw [IntentRecognizer.firstMatchIn] at h
    cases hf : ps0.find? (fun q => jsTest q msg) with
    | some q =>
      rw [hf] at h
      have hpair := Option.some.inj h
      refine ⟨ps0, ?_, ?_⟩
      · have h1 : i0 = intent := congrArg Prod.fst hpair
        rw [← h1]
        exact List.mem_cons_self _ _
      · have h2 : q = p := congrArg Prod.snd hpair
        rw [← h2]
        exact List.mem_of_find?_eq_some hf
    | none =>
      rw [hf] at h
      exact (ih h).imp fun ps hps =>
        ⟨List.mem_cons_of_mem _ hps.1, hps.2⟩

theorem intentTable_qmarks_bound :
    ∀ ips ∈ IntentRecognizer.intentTable, ∀ p ∈ ips.2,
      IntentRecognizer.countQMarks p.src.data ≤ 27 := by decide

theorem calcConfidence_ge {p : JsRegex} (msg : List Char)
    (h : IntentRecognizer.countQMarks p.src.data ≤ 27) :
    3/10 ≤ IntentRecognizer.calcConfidence p msg := by
  have hg : (0 : ℚ) ≤ (IntentRecognizer.countGroups p.src.data : ℚ) := by
    positivity
  have ho : ((IntentRecognizer.countQMarks p.src.data : ℚ)) ≤ 27 := by
    exact_mod_cast h
  have ho2 : ((IntentRecognizer.countQMarks p.src.data : ℚ)) * (2/100) ≤
      54/100 := by linarith
  have hg2 : (0 : ℚ) ≤
      (IntentRecognizer.countGroups p.src.data : ℚ) * (3/100) := by
    positivity
  simp only [IntentRecognizer.calcConfidence]
  refine le_min ?_ (by norm_num)
  split_ifs with hinc
  · linarith
  · linarith

/-- C7 counterexample: the phrasing "after hours activity" matches a
pattern listed under `time_based_query` in the pattern tables, yet
`recognizeIntent` returns `suspicious_activity_query` (an earlier intent
whose pattern also matches), so the claim fails for
X = `time_based_query`. -/
theorem c7_counterexample :
    (IntentRecognizer.timeBasedPatterns.any fun p =>
        jsTest p (IntentRecognizer.normMsg "after hours activity")) = true ∧
      (IntentRecognizer.recognizeIntent
          (some "after hours activity")).intent =
        "suspicious_activity_query" ∧
      ("suspicious_activity_query" : String) ≠ "time_based_query" := by
  exact ⟨by decide, by decide, by decide⟩

/-- C7 amended: for every phrasing, if the *first* matching
(intent, pattern) pair of the tables in declaration order falls under
intent X, then `recognizeIntent` returns X, with confidence at least
0.3. -/
theorem c7_first_pattern_intent (msg : String) (intent : String)
    (p : JsRegex)
    (h : IntentRecognizer.firstMatchIn (IntentRecognizer.normMsg msg)
        IntentRecognizer.intentTable = some (intent, p)) :
    (IntentRecognizer.recognizeIntent (some msg)).intent = intent ∧
      3/10 ≤ (IntentRecognizer.recognizeIntent (some msg)).confidence := by
  by_cases hm : msg = ""
  · subst hm
    have hnone : IntentRecognizer.firstMatchIn (IntentRecognizer.normMsg "")
        IntentRecognizer.intentTable = none := by decide
    rw [hnone] at h
    cases h
  · obtain ⟨ps, hps, hpmem⟩ := firstMatchIn_mem h
    have hb := intentTable_qmarks_bound _ hps _ hpmem
    rw [IntentRecognizer.recognizeIntent]
    simp only [hm, if_false, h]
    constructor
    · trivial
    · exact calcConfidence_ge _ hb

/-- Witness for the amended C7: "policy changes" first matches the sixth
`security_events_query` pattern. -/
theorem c7_first_pattern_intent_witness :
    (IntentRecognizer.recognizeIntent (some "policy changes")).intent =
        "security_events_query" ∧
      3/10 ≤
        (IntentRecognizer.recognizeIntent (some "policy changes")).confidence :=
  c7_first_pattern_intent "policy changes" "security_events_query"
    { re := rstr "policy changes", src := "/policy changes/i" } (by decide)

end IntentProofs

/-! ### Entity-extractor claims -/

/-- C8 counterexample: `extractEntities("last 3 weeks")` does *not*
return only `{time_period: "3 weeks"}` — the `count_limit` pattern
`/last (\d+)/i` also matches, so a `count_limit: 3` entity is present. -/
theorem c8_counterexample :
    (EntityExtractor.extractEntities (some "last 3 weeks")).count_limit =
        some (.num 3) ∧
      ((EntityExtractor.extractEntities
          (some "last 3 weeks")).count_limit).isSome = true := by
  exact ⟨by decide, by decide⟩

/-- C8 amended: `extractEntities("last 3 weeks")` returns exactly
`{time_period: "3 weeks", count_limit: 3}` (no other entity kinds). -/
theorem c8_amended_extract :
    EntityExtractor.extractEntities (some "last 3 weeks") =
      { time_period := some (.str "3 weeks".data),
        count_limit := some (.num 3) } := by decide

/-! ### Router claims -/

section RouterProofs

theorem handleRequestE_ok_shape {init : Bool} {w : Router.Workflows}
    {now : Nat} {intent : String} {r : Router.JsResponse}
    (h : Router.handleRequestE init w now intent = .ok r) :
    ∃ inp, r = Router.formatApiResponse now inp := by
  rw [Router.handleRequestE] at h
  split at h
  · exact ⟨_, (Except.ok.inj h).symm⟩
  · cases hwf : Router.workflowOf w intent with
    | some re =>
      rw [hwf] at h
      cases re with
      | ok x =>
        exact ⟨x, (Except.ok.inj
          (show Except.ok (Router.formatApiResponse now x) = Except.ok r
            from h)).symm⟩
      | error e =>
        exact absurd (show Except.error e = Except.ok r from h) (by simp)
    | none =>
      rw [hwf] at h
      have h2 : (if intent = "help_request" then
          Except.ok (Router.formatApiResponse now
            { message := Router.helpMessage, success := true })
        else Except.ok (Router.formatApiResponse now
            { message := Router.notSureMessage, success := true })) =
          Except.ok r := h
      by_cases hh : intent = "help_request"
      · rw [if_pos hh] at h2
        exact ⟨_, (Except.ok.inj h2).symm⟩
      · rw [if_neg hh] at h2
        exact ⟨_, (Except.ok.inj h2).symm⟩

theorem handleRequest_data (init : Bool) (w : Router.Workflows) (now : Nat)
    (intent : String) :
    (Router.handleRequest init w now intent).data.isSome = true := by
  rw [Router.handleRequest]
  cases hE : Router.handleRequestE init w now intent with
  | ok r =>
    obtain ⟨inp, rfl⟩ := handleRequestE_ok_shape hE
    rfl
  | error e => rfl

theorem handleRequest_workflow_error {w : Router.Workflows} {now : Nat}
    {intent : String} {e : JsError}
    (hwf : Router.workflowOf w intent = some (.error e)) :
    (Router.handleRequest true w now intent).success = false ∧
      (Router.handleRequest true w now intent).message =
        "I encountered an error: " ++ e.message := by
  have hE : Router.handleRequestE true w now intent = .error e := by
    rw [Router.handleRequestE]
    simp [hwf, Except.map]
  rw [Router.handleRequest, hE]
  exact ⟨rfl, rfl⟩

/-- C1: the router boundary never lets a workflow exception escape.  For
every intent, every response of `handleRequest` is a
`formatApiResponse` object (all of `message`, `data`, `success`,
`timestamp` present — `data` is the only key a JS object could omit and
it is always set); when the dispatched workflow throws, the call resolves
to `success:false` with a message describing the error; and
`processMessage`, wrapping it, surfaces such an error as that same
resolved response rather than a rejection. -/
theorem c1_router_error_boundary (init : Bool) (w : Router.Workflows)
    (now : Nat) (intent : String) (initOutcome : Except JsError Bool)
    (threshold : ℚ) (randIdx : Nat) (msg : String) :
    ((Router.handleRequest init w now intent).data.isSome = true) ∧
    (∀ e : JsError, init = true →
      Router.workflowOf w intent = some (.error e) →
      (Router.handleRequest init w now intent).success = false ∧
      (Router.handleRequest init w now intent).message =
        "I encountered an error: " ++ e.message) ∧
    (∀ e : JsError,
      threshold ≤ (IntentRecognizer.recognizeIntent (some msg)).confidence →
      Router.workflowOf w
          (IntentRecognizer.recognizeIntent (some msg)).intent =
        some (.error e) →
      (Router.processMessage true initOutcome true w threshold now randIdx
          msg).success = false ∧
      (Router.processMessage true initOutcome true w threshold now randIdx
          msg).message = "I encountered an error: " ++ e.message) := by
  refine ⟨handleRequest_data init w now intent, ?_, ?_⟩
  · intro e hi hwf
    subst hi
    exact handleRequest_workflow_error hwf
  · intro e hth hwf
    have hlt : ¬((IntentRecognizer.recognizeIntent (some msg)).confidence
        < threshold) := not_lt.mpr hth
    have hcore0 : Router.processMessage true initOutcome true w threshold
        now randIdx msg =
        (if (IntentRecognizer.recognizeIntent (some msg)).confidence <
            threshold then
          Router.handleLowConfidence true w now randIdx msg
            (IntentRecognizer.recognizeIntent (some msg))
        else
          Router.handleRequest true w now
            (IntentRecognizer.recognizeIntent (some msg)).intent) := rfl
    rw [hcore0, if_neg hlt]
    exact handleRequest_workflow_error hwf

/-- Witness for C1: a workflow that throws is surfaced as a resolved
`success:false` response by both `handleRequest` and `processMessage`. -/
theorem c1_router_error_boundary_witness :
    (Router.handleRequest true
        ⟨.error ⟨"boom"⟩, .ok ⟨"s", none, true⟩, .ok ⟨"u", none, true⟩,
         .ok ⟨"a", none, true⟩, .ok ⟨"t", none, true⟩⟩
        5 "event_by_user_query").success = false ∧
      (Router.processMessage true (.ok true) true
          ⟨.error ⟨"boom"⟩, .ok ⟨"s", none, true⟩, .ok ⟨"u", none, true⟩,
           .ok ⟨"a", none, true⟩, .ok ⟨"t", none, true⟩⟩
          ((IntentRecognizer.recognizeIntent
            (some "who modified policies")).confidence)
          5 0 "who modified policies").message =
        "I encountered an error: " ++ "boom" := by
  have h := c1_router_error_boundary true
    ⟨.error ⟨"boom"⟩, .ok ⟨"s", none, true⟩, .ok ⟨"u", none, true⟩,
     .ok ⟨"a", none, true⟩, .ok ⟨"t", none, true⟩⟩
    5 "event_by_user_query" (.ok true)
    ((IntentRecognizer.recognizeIntent
      (some "who modified policies")).confidence)
    0 "who modified policies"
  exact ⟨(h.2.1 ⟨"boom"⟩ rfl rfl).1,
         (h.2.2 ⟨"boom"⟩ (le_refl _) (by decide)).2⟩

end RouterProofs

/-! ### User-activity claims -/

section UserActivityProofs

open UserActivityAnalyzer

theorem analyze_unknown_user (env : AnalyzerEnv) (events : List AuditEvent)
    (uid : String) (users : List AuditService.SvcUser)
    (horg : jsTruthyS env.orgId = true)
    (hroster : env.rosterOutcome = .ok users) (hne : users ≠ [])
    (huid : uid ≠ "") (hnokey : uid ∉ userKeys events)
    (hfind : users.find? (nameMatches uid) = none) :
    analyzeUserActivity (some env) events (some uid) =
      { userId := some uid, totalActions := some 0,
        mostFrequentActivities := some [], recentActions := some [],
        knownUser := some false, allOrgUsers := some users,
        orgUsersAvailable := some (decide (users ≠ [])),
        apiErrorType := some none } := by
  have ht : jsTruthyS (some uid) = true := by simp [jsTruthyS, huid]
  have hst : rosterState env = (users, none, decide (users ≠ [])) := by
    rw [rosterState, if_pos horg, hroster]
  rw [analyzeUserActivity, if_pos ht]
  simp only [Option.getD_some, hst]
  rw [if_neg hnokey, if_pos hne, hfind]

theorem analyze_known_no_activity (env : AnalyzerEnv)
    (events : List AuditEvent) (uid : String)
    (users : List AuditService.SvcUser)
    (horg : jsTruthyS env.orgId = true)
    (hroster : env.rosterOutcome = .ok users) (hne : users ≠ [])
    (huid : uid ≠ "") (hnokey : uid ∉ userKeys events)
    (m : AuditService.SvcUser)
    (hfind : users.find? (nameMatches uid) = some m)
    (hmid : m.id ∉ userKeys events) :
    analyzeUserActivity (some env) events (some uid) =
      { userId := some m.id, userName := some m.name,
        userEmail := some m.email, totalActions := some 0,
        mostFrequentActivities := some [], recentActions := some [],
        knownUser := some true, allOrgUsers := some users,
        orgUsersAvailable := some (decide (users ≠ [])),
        apiErrorType := some none } := by
  have ht : jsTruthyS (some uid) = true := by simp [jsTruthyS, huid]
  have hst : rosterState env = (users, none, decide (users ≠ [])) := by
    rw [rosterState, if_pos horg, hroster]
  rw [analyzeUserActivity, if_pos ht]
  simp only [Option.getD_some, hst]
  rw [if_neg hnokey, if_pos hne, hfind]
  simp [hmid]

/-- C9: for a free-text user name matching no event-grouping key, with a
non-empty roster available: a name absent from the roster yields
`knownUser = false` with the roster attached and at most 10 of its
(named) users rendered as suggestions, each drawn from the roster; a name
present in the roster whose user has no events yields `knownUser = true`
with `totalActions = 0`. -/
theorem c9_free_text_user_lookup (env : AnalyzerEnv)
    (events : List AuditEvent) (uid : String)
    (users : List AuditService.SvcUser)
    (horg : jsTruthyS env.orgId = true)
    (hroster : env.rosterOutcome = .ok users) (hne : users ≠ [])
    (huid : uid ≠ "") (hnokey : uid ∉ userKeys events) :
    ((users.find? (nameMatches uid) = none →
      (analyzeUserActivity (some env) events (some uid)).knownUser =
          some false ∧
      (analyzeUserActivity (some env) events (some uid)).allOrgUsers =
          some users ∧
      (suggestionUsers
          (analyzeUserActivity (some env) events (some uid))).length ≤ 10 ∧
      ∀ u ∈ suggestionUsers
          (analyzeUserActivity (some env) events (some uid)), u ∈ users)) ∧
    (∀ m, users.find? (nameMatches uid) = some m →
      m.id ∉ userKeys events →
      (analyzeUserActivity (some env) events (some uid)).knownUser =
          some true ∧
      (analyzeUserActivity (some env) events (some uid)).totalActions =
          some 0) := by
  constructor
  · intro hfind
    rw [analyze_unknown_user env events uid users horg hroster hne huid
      hnokey hfind]
    refine ⟨rfl, rfl, ?_, ?_⟩
    · rw [suggestionUsers]
      exact List.length_take_le _ _
    · intro u hu
      rw [suggestionUsers] at hu
      exact List.mem_of_mem_filter (List.mem_of_mem_take hu)
  · intro m hfind hmid
    rw [analyze_known_no_activity env events uid users horg hroster hne
      huid hnokey m hfind hmid]
    exact ⟨rfl, rfl⟩

/-- Witness for C9: a one-user roster ("Alice"); asking about "Bob"
yields an unknown-user result with suggestions, asking about "Alice"
(who has no events) yields a known user with zero actions. -/
theorem c9_free_text_user_lookup_witness :
    ((analyzeUserActivity
        (some ⟨some "org-1",
          .ok [⟨"u-1", some "Alice", none, none, "Alice"⟩],
          fun _ => none⟩) [] (some "Bob")).knownUser = some false ∧
      (suggestionUsers (analyzeUserActivity
        (some ⟨some "org-1",
          .ok [⟨"u-1", some "Alice", none, none, "Alice"⟩],
          fun _ => none⟩) [] (some "Bob"))).length ≤ 10) ∧
    ((analyzeUserActivity
        (some ⟨some "org-1",
          .ok [⟨"u-1", some "Alice", none, none, "Alice"⟩],
          fun _ => none⟩) [] (some "Alice")).knownUser = some true ∧
      (analyzeUserActivity
        (some ⟨some "org-1",
          .ok [⟨"u-1", some "Alice", none, none, "Alice"⟩],
          fun _ => none⟩) [] (some "Alice")).totalActions = some 0) := by
  constructor
  · have h := (c9_free_text_user_lookup
      ⟨some "org-1", .ok [⟨"u-1", some "Alice", none, none, "Alice"⟩],
        fun _ => none⟩
      [] "Bob" [⟨"u-1", some "Alice", none, none, "Alice"⟩]
      (by decide) rfl (by decide) (by decide) (by decide)).1 (by decide)
    exact ⟨h.1, h.2.2.1⟩
  · exact (c9_free_text_user_lookup
      ⟨some "org-1", .ok [⟨"u-1", some "Alice", none, none, "Alice"⟩],
        fun _ => none⟩
      [] "Alice" [⟨"u-1", some "Alice", none, none, "Alice"⟩]
      (by decide) rfl (by decide) (by decide) (by decide)).2
      ⟨"u-1", some "Alice", none, none, "Alice"⟩ (by decide) (by decide)

/-- C10: the roster failure classification never reaches the analysis
result.  For *every* outcome of the underlying members request —
including 401/403/404 and network failures — the analyzer's result
carries `apiErrorType: null`, because `SnykApiClient.getAllOrgUsers`
computes the classification but returns `[]` instead of throwing (and
the service layer likewise); the classification that the claim expects
to surface (shown for 401 in the second conjunct) exists only in the
client's dead `catch` path. -/
theorem c10_roster_error_classification_lost :
    (∀ o : ApiClient.HttpOutcome,
      (analyzeUserActivity
        (some ⟨some "org-123", AuditService.rosterOutcomeOfHttp o,
          fun _ => none⟩) [] (some "Alice")).apiErrorType = some none) ∧
    ApiClient.classifyOrgUsersError (.httpError 401) =
      some "Authentication error: API key may be invalid or expired" := by
  constructor
  · intro o
    cases o with
    | okOther => decide
    | httpError st => rfl
    | networkError m => rfl
    | ok ms =>
      have hroster : AuditService.rosterOutcomeOfHttp (.ok ms) =
          .ok (ms.map AuditService.processUser) := rfl
      have hfind : (ms.map AuditService.processUser).find?
          (nameMatches "Alice") = none := by
        rw [List.find?_eq_none]
        intro m hm
        obtain ⟨r, _, rfl⟩ := List.mem_map.mp hm
        simp [nameMatches, AuditService.processUser, jsTruthyS]
      by_cases hus : ms.map AuditService.processUser = []
      · have ht : jsTruthyS (some "Alice") = true := by decide
        rw [analyzeUserActivity, if_pos ht]
        simp only [Option.getD_some]
        rw [if_neg (by decide : ¬("Alice" : String) ∈ userKeys [])]
        have hst : rosterState
            ⟨some "org-123", AuditService.rosterOutcomeOfHttp (.ok ms),
              fun _ => none⟩ =
            (ms.map AuditService.processUser, none,
              decide (ms.map AuditService.processUser ≠ [])) := by
          rw [rosterState, if_pos (by exact rfl), hroster]
        simp only [hst]
        rw [if_neg (by simp [hus])]
        rfl
      · rw [analyze_unknown_user
          ⟨some "org-123", AuditService.rosterOutcomeOfHttp (.ok ms),
            fun _ => none⟩ [] "Alice" (ms.map AuditService.processUser)
          (by exact rfl) rfl hus (by decide) (by decide) hfind]
  · rfl

end UserActivityProofs

end SnykAudit
